import Mathlib

/-!
Verification of the two-click signature demo
(app/web-sdk/two-click-signature-demo/viewer.tsx and its extended variant).

The demo stores per-widget UI state in the "customData" metadata bag of
SDK widget annotations.  A custom renderer draws a "sign here" overlay on
unsigned signature widgets; a first pointer-down flips a per-field
"clickedOnce" flag (showing "click to sign"), a pointer-down elsewhere
clears it, a second pointer-down on the still-active widget asks the SDK
to open its signing UI, and a polling routine marks fields whose form
field has overlapping annotations as signed ("isSigned") which suppresses
the overlay.

We embed the annotation / form-field data model and each handler as a
pure state transformer, returning alongside the new state the list of SDK
calls the handler issued.
-/

set_option maxRecDepth 10000

/-- The "customData" metadata bag attached to annotations.  The demo reads
and writes the keys "type", "signerName", "signerColor", "clickedOnce",
"isSigned", "activated" and "hasValue"; any other keys a bag might carry
are modelled by the "extra" association list, which every spread-update in
the demo preserves verbatim. -/
structure CustomData where
  ctype : Option String := none
  signerName : Option String := none
  signerColor : Option String := none
  clickedOnce : Option Bool := none
  isSigned : Option Bool := none
  activated : Option Bool := none
  hasValue : Option Bool := none
  extra : List (String × String) := []
deriving DecidableEq

/-- JavaScript truthiness of an optional boolean property: an absent key is
falsy, a present key has the truthiness of its boolean. -/
def truthy : Option Bool → Bool
  | some b => b
  | none => false

/-- Bounding box of an annotation (NutrientViewer Geometry.Rect). -/
structure Rect where
  left : Nat
  top : Nat
  width : Nat
  height : Nat
deriving DecidableEq

/-- The SDK annotation classes the demo distinguishes: WidgetAnnotation,
TextAnnotation (used for form labels), and any other annotation class
(for example the signature image annotations the SDK creates). -/
inductive AnnKind where
  | widget
  | text
  | other
deriving DecidableEq

/-- An SDK annotation, restricted to the properties the demo reads. -/
structure Annot where
  id : String
  kind : AnnKind
  pageIndex : Nat
  boundingBox : Rect
  formFieldName : Option String := none
  customData : Option CustomData := none
  textValue : Option String := none
deriving DecidableEq

/-- The SDK form-field classes appearing in the demo. -/
inductive FieldKind where
  | signatureField
  | textField
  | checkBoxField
  | radioField
deriving DecidableEq

/-- An SDK form field, restricted to the properties the demo reads. -/
structure FormField where
  name : String
  kind : FieldKind
  annotationIds : List String
  value : Option String := none
  required : Bool := false
deriving DecidableEq

/-- The viewer instance state the demo observes: the annotations of each
page (pages are indexed by position, as instance.getAnnotations indexes by
pageIndex, and instance.totalPageCount is the number of pages) and the
list of form fields. -/
structure InstanceState where
  pages : List (List Annot)
  formFields : List FormField
deriving DecidableEq

/-- The demo component state: the instance plus the
activeAnnotationIdRef tracking which annotation is in
"click to sign" state (at most one, by the type of the ref). -/
structure DemoState where
  inst : InstanceState
  activeAnnotationId : Option String := none
deriving DecidableEq

/-- Calls the demo handlers issue into the SDK: instance.update of an
annotation's customData, and instance.setSelectedAnnotations. -/
inductive SdkCall where
  | update (annId : String) (cd : CustomData)
  | setSelectedAnnotations (ids : List String)
deriving DecidableEq

/-- All annotations of all pages, in page order. -/
def allAnns (i : InstanceState) : List Annot :=
  i.pages.flatten

/-- instance.getAnnotations pageIndex. -/
def getAnnots (i : InstanceState) (pageIndex : Nat) : List Annot :=
  i.pages.getD pageIndex []

/-- instance.update: the SDK replaces the stored annotation that has the
updated annotation's id. -/
def setAnnot (i : InstanceState) (a : Annot) : InstanceState :=
  { i with pages := i.pages.map (fun pg => pg.map (fun b => if b.id = a.id then a else b)) }

/-- Lookup of an annotation by id, scanning pages in order (the order the
demo's page loops use). -/
def findAnnPages : List (List Annot) → String → Option Annot
  | [], _ => none
  | pg :: rest, annId =>
    match pg.find? (fun a => a.id == annId) with
    | some a => some a
    | none => findAnnPages rest annId

def lookupAnn (i : InstanceState) (annId : String) : Option Annot :=
  findAnnPages i.pages annId

/-- The page-loop search pattern shared by resetActiveAnnotation and
updateSignedFieldOverlays: for each page in order, find the first
annotation satisfying the predicate; if one is found and its customData is
present, stop with it, otherwise move on to the next page (the code guards
with "if (widget?.customData)" and only then updates and breaks). -/
def findWidgetWithCD : List (List Annot) → ( Annot → Bool) → Option ( Annot × CustomData)
  | [], _ => none
  | pg :: rest, p =>
    match pg.find? p with
    | some w =>
      match w.customData with
      | some cd => some (w, cd)
      | none => findWidgetWithCD rest p
    | none => findWidgetWithCD rest p

/-- resetActiveAnnotation: if no annotation is active, do nothing;
otherwise null the ref, locate the active widget annotation by id across
the pages, and update its customData with clickedOnce set to false,
spreading the old bag. -/
def resetActiveAnnot (d : DemoState) : DemoState × List SdkCall :=
  match d.activeAnnotationId with
  | none => (d, [])
  | some activeId =>
    let d1 : DemoState := { d with activeAnnotationId := none }
    match findWidgetWithCD d1.inst.pages (fun a => a.kind == AnnKind.widget && a.id == activeId) with
    | some (w, cd) =>
      let newCd : CustomData := { cd with clickedOnce := some false }
      ({ d1 with inst := setAnnot d1.inst { w with customData := some newCd } },
       [SdkCall.update w.id newCd])
    | none => (d1, [])

/-- The two-click handler attached (with capture) to a rendered signature
overlay.  "a" and "cd" are the annotation and customData captured by the
renderer.  If the annotation is already the active one, the handler calls
setSelectedAnnotations with exactly its id (opening the SDK signing UI)
and leaves all state alone; otherwise it first resets any other active
annotation, stores this annotation's id in the ref, and updates the
annotation's customData with clickedOnce set to true, spreading the old
bag. -/
def handleClick (a : Annot) (cd : CustomData) (d : DemoState) : DemoState × List SdkCall :=
  if d.activeAnnotationId = some a.id then
    (d, [SdkCall.setSelectedAnnotations [a.id]])
  else
    let r :=
      match d.activeAnnotationId with
      | some _ => resetActiveAnnot d
      | none => (d, [])
    let newCd : CustomData := { cd with clickedOnce := some true }
    let d2 : DemoState := { r.1 with activeAnnotationId := some a.id }
    ({ d2 with inst := setAnnot d2.inst { a with customData := some newCd } },
     r.2 ++ [SdkCall.update a.id newCd])

/-- Marking step of updateSignedFieldOverlays for one signature form field
with overlapping annotations: find its widget annotation by formFieldName
across the pages and update its customData with isSigned true and
clickedOnce false, spreading the old bag. -/
def markSignedWidget (i : InstanceState) (name : String) : InstanceState × List SdkCall :=
  match findWidgetWithCD i.pages (fun a => a.kind == AnnKind.widget && a.formFieldName == some name) with
  | some (w, cd) =>
    let newCd : CustomData := { cd with isSigned := some true, clickedOnce := some false }
    (setAnnot i { w with customData := some newCd }, [SdkCall.update w.id newCd])
  | none => (i, [])

/-- updateSignedFieldOverlays: for every form field (snapshot taken before
the loop), if it is a SignatureFormField whose
getOverlappingAnnotations result is non-empty, mark its widget as signed.
The overlap query is SDK-owned, so it enters as the oracle "ov" giving the
size of the overlapping collection per field name. -/
def updateSignedFieldOverlays (ov : String → Nat) (i : InstanceState) : InstanceState × List SdkCall :=
  i.formFields.foldl
    (fun acc f =>
      if f.kind = FieldKind.signatureField ∧ 0 < ov f.name then
        let r := markSignedWidget acc.1 f.name
        (r.1, acc.2 ++ r.2)
      else acc)
    (i, [])

/-- The overlay node the basic variant's custom Annotation renderer
returns for an unsigned signature widget. -/
structure Overlay where
  className : String
  dataFormFieldName : String
  text : String
deriving DecidableEq

/-- The custom Annotation renderer of the basic variant: null unless the
annotation is a WidgetAnnotation whose customData "type" is "signature";
null again once isSigned is truthy; otherwise an overlay whose class and
text depend on the truthiness of clickedOnce. -/
def renderAnnot (a : Annot) : Option Overlay :=
  if a.kind ≠ AnnKind.widget then none
  else
    match a.customData with
    | none => none
    | some cd =>
      if cd.ctype ≠ some "signature" then none
      else if truthy cd.isSigned then none
      else some
        { className := if truthy cd.clickedOnce then "signature-overlay clicked" else "signature-overlay"
        , dataFormFieldName := a.formFieldName.getD ""
        , text := if truthy cd.clickedOnce then "click to sign" else "sign here" }

/-- Overlay nodes of the extended variant's renderer: a badge node for
text-field widgets, or the signature overlay (with an initials badge). -/
inductive OverlayExt where
  | textFieldNode (badge : String) (nameText : String)
  | signatureNode (className : String) (dataFormFieldName : String) (text : String) (initials : String)
deriving DecidableEq

/-- The initials shown on the extended signature overlay:
split the signer name on spaces, take the first character of every word,
join, uppercase, and keep at most two characters. -/
def initialsOf (signerName : String) : String :=
  (((signerName.splitOn " ").map (fun w => w.take 1)).foldl (fun acc s => acc ++ s) "").toUpper.take 2

/-- The custom Annotation renderer of the extended variant: null for
non-widget annotations; a text-field badge node for widgets whose
customData "type" is "text-field" (hidden while activated or once the
field has a value); the signature overlay for widgets whose customData
"type" is "signature" and which are not yet signed; null otherwise. -/
def renderAnnotExt (a : Annot) : Option OverlayExt :=
  if a.kind ≠ AnnKind.widget then none
  else
    match a.customData with
    | none => none
    | some cd =>
      if cd.ctype = some "text-field" then
        if truthy cd.hasValue || truthy cd.activated then none
        else some (OverlayExt.textFieldNode "T" (cd.signerName.getD "").toUpper)
      else if cd.ctype ≠ some "signature" then none
      else if truthy cd.isSigned then none
      else some (OverlayExt.signatureNode
        (if truthy cd.clickedOnce then "signature-overlay clicked" else "signature-overlay")
        (a.formFieldName.getD "")
        (if truthy cd.clickedOnce then "click to sign" else "sign here")
        (initialsOf (cd.signerName.getD "")))

/-- The container's "click elsewhere" listener of the basic variant: it
only calls resetActiveAnnotation.  (Pointer-downs on overlays never reach
it: the overlay handlers run in the capture phase and call
stopImmediatePropagation.) -/
def handleClickElsewhere (d : DemoState) : DemoState × List SdkCall :=
  resetActiveAnnot d

/-- Extended-variant part of the container listener: deactivate every
page-0 text-field widget that was activated but has no value yet.  The
loop iterates a snapshot of getAnnotations(0) and updates each qualifying
annotation's customData with activated set to false, spreading the bag. -/
def deactivateTextFields (d : DemoState) : DemoState × List SdkCall :=
  let targets := (d.inst.pages.headD []).filterMap (fun a =>
    match a.customData with
    | some cd =>
      if a.kind = AnnKind.widget ∧ cd.ctype = some "text-field"
          ∧ cd.activated = some true ∧ truthy cd.hasValue = false then
        some (a, cd)
      else none
    | none => none)
  targets.foldl
    (fun acc x =>
      let newCd : CustomData := { x.2 with activated := some false }
      ({ acc.1 with inst := setAnnot acc.1.inst { x.1 with customData := some newCd } },
       acc.2 ++ [SdkCall.update x.1.id newCd]))
    (d, [])

/-- The container's "click elsewhere" listener of the extended variant:
reset the active annotation, then, unless the pointer-down target is a
text input (the user repositioning the cursor), deactivate
opened-but-unfilled text-field overlays. -/
def handleClickElsewhereExt (isTextInputTarget : Bool) (d : DemoState) : DemoState × List SdkCall :=
  let r := resetActiveAnnot d
  if isTextInputTarget then r
  else
    let r2 := deactivateTextFields r.1
    (r2.1, r.2 ++ r2.2)

/-- The DOM / SDK events that drive the two-click logic, under sequential
event handling: a pointer-down that hits an annotation's position (it is
intercepted by the overlay's capture handler when that annotation
currently has an overlay, and reaches the container listener otherwise),
a pointer-down that hits no annotation, the SDK's
annotationSelection.change event, and a scheduled run of the poll. -/
inductive DemoEvent where
  | overlayPointerDown (annId : String)
  | containerPointerDown
  | selectionChange
  | runPoll (ov : String → Nat)

/-- One step of the basic variant's event logic, with the SDK calls it
issues. -/
def stepTr : DemoEvent → DemoState → DemoState × List SdkCall
  | DemoEvent.overlayPointerDown annId, d =>
    match lookupAnn d.inst annId with
    | some a =>
      if (renderAnnot a).isSome then
        match a.customData with
        | some cd => handleClick a cd d
        | none => resetActiveAnnot d
      else resetActiveAnnot d
    | none => resetActiveAnnot d
  | DemoEvent.containerPointerDown, d => handleClickElsewhere d
  | DemoEvent.selectionChange, d => resetActiveAnnot d
  | DemoEvent.runPoll ov, d =>
    let r := updateSignedFieldOverlays ov d.inst
    ({ d with inst := r.1 }, r.2)

def step (e : DemoEvent) (d : DemoState) : DemoState :=
  (stepTr e d).1

def runEvents (evs : List DemoEvent) (d : DemoState) : DemoState :=
  evs.foldl (fun s e => step e s) d

/-- Actions a registered event listener performs when its event fires
(transcribed from loadViewer): scheduling the poll through setTimeout with
a given delay, resetting the active annotation, or (extended variant)
syncing text-field overlay visibility with form-field values. -/
inductive ListenerAction where
  | schedulePoll (delayMs : Nat)
  | resetActive
  | syncTextFieldValues
deriving DecidableEq

/-- The event listeners loadViewer registers in the basic variant, with
the actions each performs per event. -/
def loadViewerListeners : List (String × List ListenerAction) :=
  [ ("annotationSelection.change", [ListenerAction.resetActive])
  , ("annotations.create", [ListenerAction.schedulePoll 100, ListenerAction.schedulePoll 300])
  , ("annotations.update", [ListenerAction.schedulePoll 100]) ]

/-- The event listeners loadViewer registers in the extended variant. -/
def loadViewerListenersExt : List (String × List ListenerAction) :=
  [ ("annotationSelection.change", [ListenerAction.resetActive])
  , ("annotations.create", [ListenerAction.schedulePoll 100, ListenerAction.schedulePoll 300])
  , ("annotations.update", [ListenerAction.schedulePoll 100])
  , ("formFieldValues.update", [ListenerAction.syncTextFieldValues]) ]

/-- The poll runs loadViewer itself schedules right after registering the
listeners (both variants): a single setTimeout with delay 500. -/
def loadViewerTailPolls : List Nat :=
  [500]

/-- The actions a listener table runs for a given event name. -/
def listenerActions (tbl : List (String × List ListenerAction)) (evt : String) : List ListenerAction :=
  ((tbl.find? (fun x => x.1 == evt)).map (fun x => x.2)).getD []

/-- The setTimeout delays with which a list of listener actions schedules
the poll. -/
def pollDelays (acts : List ListenerAction) : List Nat :=
  acts.filterMap (fun a =>
    match a with
    | ListenerAction.schedulePoll dMs => some dMs
    | _ => none)

/-- createLabel: the locked, non-interactive page-0 TextAnnotation serving
as a form-field label (tagged with customData type "form-label").  The SDK
assigns the new annotation an id, modelled by the labelId argument. -/
def createLabel (labelId : String) (labelText : String) (x y w : Nat) (h : Nat := 20) : Annot :=
  { id := labelId
  , kind := AnnKind.text
  , pageIndex := 0
  , boundingBox := { left := x, top := y, width := w, height := h }
  , textValue := some labelText
  , customData := some { ctype := some "form-label" } }

/-- Whether an annotation is a form label, as handleLoadFields tests it:
its customData "type" is "form-label". -/
def isFormLabelAnn (a : Annot) : Bool :=
  match a.customData with
  | some cd => cd.ctype == some "form-label"
  | none => false

/-- instance.delete of a form field: the field is removed and its widget
annotations (the ones its annotationIds list) are deleted automatically. -/
def deleteFormField (i : InstanceState) (f : FormField) : InstanceState :=
  { i with
    formFields := i.formFields.filter (fun g => g.name != f.name)
  , pages := i.pages.map (fun pg => pg.filter (fun a => !(f.annotationIds.contains a.id))) }

/-- instance.delete of an annotation: it is removed by id. -/
def deleteAnnot (i : InstanceState) (a : Annot) : InstanceState :=
  { i with pages := i.pages.map (fun pg => pg.filter (fun b => b.id != a.id)) }

/-- Items passed to instance.create: annotations and form fields. -/
inductive CreateItem where
  | ann (a : Annot)
  | field (f : FormField)

/-- instance.create of a single annotation: appended to its page. -/
def addToPage : List (List Annot) → Nat → Annot → List (List Annot)
  | [], _, _ => []
  | pg :: rest, 0, a => (pg ++ [a]) :: rest
  | pg :: rest, Nat.succ n, a => pg :: addToPage rest n a

def createAnnInst (i : InstanceState) (a : Annot) : InstanceState :=
  { i with pages := addToPage i.pages a.pageIndex a }

/-- instance.create of a batch of annotations and form fields, in order. -/
def createItems (i : InstanceState) (items : List CreateItem) : InstanceState :=
  items.foldl
    (fun s it =>
      match it with
      | CreateItem.ann a => createAnnInst s a
      | CreateItem.field f => { s with formFields := s.formFields ++ [f] })
    i

/-- The fresh ids handleLoadFields generates (in the code, from Date.now()
and Math.random()): one per new widget/field pair, and one per label the
SDK creates. -/
structure LoadIds where
  fullNameId : String
  dateId : String
  agreeId : String
  updatesId : String
  lblFullNameId : String
  lblDateId : String
  lblAgreeId : String
  lblUpdatesId : String
  sigIds : List String
deriving DecidableEq

/-- The signature rows handleLoadFields creates: signer name, color, x, y. -/
def sigFieldSpecs : List (String × String × Nat × Nat) :=
  [ ("John Doe", "#4A90E2", 96, 300)
  , ("Jane Smith", "#7B68EE", 318, 300)
  , ("John Doe", "#4A90E2", 96, 400)
  , ("Jane Smith", "#7B68EE", 318, 400) ]

def fullNameWidgetOf (ids : LoadIds) : Annot :=
  { id := ids.fullNameId, kind := AnnKind.widget, pageIndex := 0
  , formFieldName := some ids.fullNameId
  , boundingBox := { left := 160, top := 50, width := 280, height := 24 } }

def fullNameFieldOf (ids : LoadIds) : FormField :=
  { name := ids.fullNameId, kind := FieldKind.textField
  , annotationIds := [ids.fullNameId], value := some "" }

def dateWidgetOf (ids : LoadIds) : Annot :=
  { id := ids.dateId, kind := AnnKind.widget, pageIndex := 0
  , formFieldName := some ids.dateId
  , boundingBox := { left := 160, top := 100, width := 150, height := 24 } }

def dateFieldOf (ids : LoadIds) : FormField :=
  { name := ids.dateId, kind := FieldKind.textField
  , annotationIds := [ids.dateId], value := some "" }

def agreeWidgetOf (ids : LoadIds) : Annot :=
  { id := ids.agreeId, kind := AnnKind.widget, pageIndex := 0
  , formFieldName := some ids.agreeId
  , boundingBox := { left := 50, top := 150, width := 20, height := 20 } }

def agreeFieldOf (ids : LoadIds) : FormField :=
  { name := ids.agreeId, kind := FieldKind.checkBoxField
  , annotationIds := [ids.agreeId] }

def updatesWidgetOf (ids : LoadIds) : Annot :=
  { id := ids.updatesId, kind := AnnKind.widget, pageIndex := 0
  , formFieldName := some ids.updatesId
  , boundingBox := { left := 220, top := 150, width := 20, height := 20 } }

def updatesFieldOf (ids : LoadIds) : FormField :=
  { name := ids.updatesId, kind := FieldKind.checkBoxField
  , annotationIds := [ids.updatesId] }

/-- A signature widget annotation created by handleLoadFields. -/
def mkSigWidget (fieldId : String) (spec : String × String × Nat × Nat) : Annot :=
  { id := fieldId, kind := AnnKind.widget, pageIndex := 0
  , boundingBox := { left := spec.2.2.1, top := spec.2.2.2, width := 150, height := 50 }
  , formFieldName := some fieldId
  , customData := some { ctype := some "signature", signerName := some spec.1, signerColor := some spec.2.1 } }

/-- A SignatureFormField created by handleLoadFields. -/
def mkSigField (fieldId : String) : FormField :=
  { name := fieldId, kind := FieldKind.signatureField, annotationIds := [fieldId] }

/-- handleLoadFields of the basic variant: delete every existing form
field (their widgets go with them), delete every page-0 annotation tagged
"form-label", then create the text fields, the checkboxes and the four
signature fields with their labels and widgets, all with fresh ids. -/
def handleLoadFields (ids : LoadIds) (i : InstanceState) : InstanceState :=
  let i1 := i.formFields.foldl deleteFormField i
  let labels := (getAnnots i1 0).filter isFormLabelAnn
  let i2 := labels.foldl deleteAnnot i1
  let i3 := createItems i2
    [ CreateItem.ann (createLabel ids.lblFullNameId "Full Name:" 50 52 100)
    , CreateItem.ann (fullNameWidgetOf ids)
    , CreateItem.field (fullNameFieldOf ids)
    , CreateItem.ann (createLabel ids.lblDateId "Date:" 50 102 100)
    , CreateItem.ann (dateWidgetOf ids)
    , CreateItem.field (dateFieldOf ids) ]
  let i4 := createItems i3
    [ CreateItem.ann (agreeWidgetOf ids)
    , CreateItem.field (agreeFieldOf ids)
    , CreateItem.ann (createLabel ids.lblAgreeId "Agree to terms" 78 150 130)
    , CreateItem.ann (updatesWidgetOf ids)
    , CreateItem.field (updatesFieldOf ids)
    , CreateItem.ann (createLabel ids.lblUpdatesId "Receive updates" 248 150 130) ]
  (List.zip ids.sigIds sigFieldSpecs).foldl
    (fun s x => createItems s [CreateItem.ann (mkSigWidget x.1 x.2), CreateItem.field (mkSigField x.1)])
    i4

/-- The form fields handleLoadFields leaves in the instance. -/
def newFormFields (ids : LoadIds) : List FormField :=
  [fullNameFieldOf ids, dateFieldOf ids, agreeFieldOf ids, updatesFieldOf ids]
    ++ (List.zip ids.sigIds sigFieldSpecs).map (fun x => mkSigField x.1)

/-- The form-label annotations handleLoadFields leaves on page 0. -/
def newLabels (ids : LoadIds) : List Annot :=
  [ createLabel ids.lblFullNameId "Full Name:" 50 52 100
  , createLabel ids.lblDateId "Date:" 50 102 100
  , createLabel ids.lblAgreeId "Agree to terms" 78 150 130
  , createLabel ids.lblUpdatesId "Receive updates" 248 150 130 ]

/-- The names of the form fields handleLoadFields creates. -/
def newFieldNames (ids : LoadIds) : List String :=
  [ids.fullNameId, ids.dateId, ids.agreeId, ids.updatesId] ++ ids.sigIds

/-- The ids of the labels handleLoadFields creates. -/
def newLabelIds (ids : LoadIds) : List String :=
  [ids.lblFullNameId, ids.lblDateId, ids.lblAgreeId, ids.lblUpdatesId]

/-! ### Basic facts about the search helpers -/

theorem mem_flatten_of_mem_head {pg : List Annot} {rest : List (List Annot)} {x : Annot}
    (h : x ∈ pg) : x ∈ (pg :: rest).flatten := by
  rw [List.flatten_cons, List.mem_append]
  exact Or.inl h

theorem mem_flatten_of_mem_rest {pg : List Annot} {rest : List (List Annot)} {x : Annot}
    (h : x ∈ rest.flatten) : x ∈ (pg :: rest).flatten := by
  rw [List.flatten_cons, List.mem_append]
  exact Or.inr h

theorem findWidgetWithCD_spec {pages : List (List Annot)} {p : Annot → Bool}
    {w : Annot} {cd : CustomData}
    (h : findWidgetWithCD pages p = some (w, cd)) :
    w ∈ pages.flatten ∧ p w = true ∧ w.customData = some cd := by
  induction pages with
  | nil => simp [findWidgetWithCD] at h
  | cons pg rest ih =>
    rw [findWidgetWithCD] at h
    cases hf : pg.find? p with
    | none =>
      simp only [hf] at h
      rcases ih h with ⟨hm, hp, hcd⟩
      exact ⟨mem_flatten_of_mem_rest hm, hp, hcd⟩
    | some w0 =>
      simp only [hf] at h
      cases hcd0 : w0.customData with
      | none =>
        simp only [hcd0] at h
        rcases ih h with ⟨hm, hp, hcd⟩
        exact ⟨mem_flatten_of_mem_rest hm, hp, hcd⟩
      | some cd0 =>
        simp only [hcd0, Option.some.injEq, Prod.mk.injEq] at h
        rcases h with ⟨hw, hcd1⟩
        subst hw
        subst hcd1
        exact ⟨mem_flatten_of_mem_head (List.mem_of_find?_eq_some hf),
          List.find?_some hf, hcd0⟩

theorem findWidgetWithCD_complete {pages : List (List Annot)} {p : Annot → Bool}
    {x : Annot} {cd : CustomData}
    (hm : x ∈ pages.flatten) (hp : p x = true) (hcd : x.customData = some cd)
    (huniq : ∀ y, y ∈ pages.flatten → p y = true → y = x) :
    findWidgetWithCD pages p = some (x, cd) := by
  induction pages with
  | nil => simp at hm
  | cons pg rest ih =>
    rw [findWidgetWithCD]
    rw [List.flatten_cons, List.mem_append] at hm
    cases hf : pg.find? p with
    | none =>
      simp only []
      rcases hm with hm | hm
      · exact absurd hp (by simpa using List.find?_eq_none.mp hf x hm)
      · exact ih hm (fun y hy => huniq y (mem_flatten_of_mem_rest hy))
    | some w0 =>
      have hw0 : w0 = x :=
        huniq w0 (mem_flatten_of_mem_head (List.mem_of_find?_eq_some hf)) (List.find?_some hf)
      subst hw0
      simp only [hcd]

theorem findAnnPages_spec {pages : List (List Annot)} {annId : String} {a : Annot}
    (h : findAnnPages pages annId = some a) :
    a ∈ pages.flatten ∧ a.id = annId := by
  induction pages with
  | nil => simp [findAnnPages] at h
  | cons pg rest ih =>
    rw [findAnnPages] at h
    cases hf : pg.find? (fun b => b.id == annId) with
    | none =>
      simp only [hf] at h
      rcases ih h with ⟨hm, hid⟩
      exact ⟨mem_flatten_of_mem_rest hm, hid⟩
    | some a0 =>
      simp only [hf, Option.some.injEq] at h
      subst h
      exact ⟨mem_flatten_of_mem_head (List.mem_of_find?_eq_some hf),
        by simpa using List.find?_some hf⟩

theorem findAnnPages_isSome_of_mem {pages : List (List Annot)} {x : Annot}
    (hm : x ∈ pages.flatten) :
    (findAnnPages pages x.id).isSome := by
  induction pages with
  | nil => simp at hm
  | cons pg rest ih =>
    rw [findAnnPages]
    rw [List.flatten_cons, List.mem_append] at hm
    cases hf : pg.find? (fun b => b.id == x.id) with
    | none =>
      simp only [hf]
      rcases hm with hm | hm
      · exact absurd (by simp : (x.id == x.id) = true) (by simpa using List.find?_eq_none.mp hf x hm)
      · exact ih hm
    | some a0 => simp

/-! ### Skeletons and pointwise relations between instance states -/

/-- All annotation properties other than customData: these are what the
event-logic updates never touch. -/
def annSkel (a : Annot) : String × AnnKind × Nat × Option String × Rect :=
  (a.id, a.kind, a.pageIndex, a.formFieldName, a.boundingBox)

def truthyIsSigned (a : Annot) : Bool :=
  match a.customData with
  | some cd => truthy cd.isSigned
  | none => false

def truthyClickedOnce (a : Annot) : Bool :=
  match a.customData with
  | some cd => truthy cd.clickedOnce
  | none => false

theorem annSkel_id {x y : Annot} (h : annSkel y = annSkel x) : y.id = x.id :=
  congrArg Prod.fst h

theorem annSkel_kind {x y : Annot} (h : annSkel y = annSkel x) : y.kind = x.kind :=
  congrArg (fun s => s.2.1) h

theorem annSkel_ffn {x y : Annot} (h : annSkel y = annSkel x) :
    y.formFieldName = x.formFieldName :=
  congrArg (fun s => s.2.2.2.1) h

/-- Pointwise relation between an annotation and its successor under the
event logic: the skeleton and the presence of customData are preserved,
and a truthy isSigned stays truthy. -/
def AnnLe (x y : Annot) : Prop :=
  annSkel y = annSkel x ∧ y.customData.isSome = x.customData.isSome
    ∧ (truthyIsSigned x = true → truthyIsSigned y = true)

theorem annLe_refl (x : Annot) : AnnLe x x :=
  ⟨rfl, rfl, fun h => h⟩

theorem annLe_trans {x y z : Annot} (h1 : AnnLe x y) (h2 : AnnLe y z) : AnnLe x z :=
  ⟨h2.1.trans h1.1, h2.2.1.trans h1.2.1, fun h => h2.2.2 (h1.2.2 h)⟩

/-- Pointwise relation between the page lists of two instance states. -/
def PagesRel (R : Annot → Annot → Prop) (ps qs : List (List Annot)) : Prop :=
  List.Forall₂ (List.Forall₂ R) ps qs

theorem forall2_self {α : Type} {R : α → α → Prop} {l : List α}
    (h : ∀ x ∈ l, R x x) : List.Forall₂ R l l := by
  induction l with
  | nil => exact List.Forall₂.nil
  | cons x l ih =>
    exact List.Forall₂.cons (h x (List.mem_cons_self x l)) (ih fun y hy => h y (List.mem_cons_of_mem x hy))

theorem forall2_map_self {α : Type} {R : α → α → Prop} {l : List α} {f : α → α}
    (h : ∀ x ∈ l, R x (f x)) : List.Forall₂ R l (l.map f) := by
  induction l with
  | nil => exact List.Forall₂.nil
  | cons x l ih =>
    exact List.Forall₂.cons (h x (List.mem_cons_self x l)) (ih fun y hy => h y (List.mem_cons_of_mem x hy))

theorem pagesRel_refl {R : Annot → Annot → Prop} {ps : List (List Annot)}
    (h : ∀ x ∈ ps.flatten, R x x) : PagesRel R ps ps :=
  forall2_self fun pg hpg => forall2_self fun x hx =>
    h x (List.mem_flatten.mpr ⟨pg, hpg, hx⟩)

theorem forall2_compose {α : Type} {R S T : α → α → Prop} :
    ∀ {l1 l2 l3 : List α}, List.Forall₂ R l1 l2 → List.Forall₂ S l2 l3 →
      (∀ x y z, x ∈ l1 → R x y → S y z → T x z) → List.Forall₂ T l1 l3 := by
  intro l1 l2 l3 h1 h2 hc
  induction h1 generalizing l3 with
  | nil => cases h2; exact List.Forall₂.nil
  | cons hxy _ ih =>
    cases h2 with
    | cons hyz htail =>
      exact List.Forall₂.cons
        (hc _ _ _ (List.mem_cons_self _ _) hxy hyz)
        (ih htail fun x y z hx => hc x y z (List.mem_cons_of_mem _ hx))

theorem pagesRel_compose {R S T : Annot → Annot → Prop}
    {p1 p2 p3 : List (List Annot)}
    (h1 : PagesRel R p1 p2) (h2 : PagesRel S p2 p3)
    (hc : ∀ x y z, x ∈ p1.flatten → R x y → S y z → T x z) : PagesRel T p1 p3 := by
  refine forall2_compose h1 h2 ?_
  intro pg1 pg2 pg3 hpg h12 h23
  refine forall2_compose h12 h23 ?_
  intro x y z hx
  exact hc x y z (List.mem_flatten.mpr ⟨pg1, hpg, hx⟩)

theorem forall2_mono_mem {α : Type} {R S : α → α → Prop} :
    ∀ {l1 l2 : List α}, List.Forall₂ R l1 l2 →
      (∀ x y, x ∈ l1 → R x y → S x y) → List.Forall₂ S l1 l2 := by
  intro l1 l2 h hm
  induction h with
  | nil => exact List.Forall₂.nil
  | cons hxy _ ih =>
    exact List.Forall₂.cons
      (hm _ _ (List.mem_cons_self _ _) hxy)
      (ih fun x y hx => hm x y (List.mem_cons_of_mem _ hx))

theorem pagesRel_mono {R S : Annot → Annot → Prop} {p1 p2 : List (List Annot)}
    (h : PagesRel R p1 p2) (hm : ∀ x y, x ∈ p1.flatten → R x y → S x y) : PagesRel S p1 p2 := by
  refine forall2_mono_mem h ?_
  intro pg1 pg2 hpg h12
  exact forall2_mono_mem h12 fun x y hx =>
    hm x y (List.mem_flatten.mpr ⟨pg1, hpg, hx⟩)

theorem pagesRel_mem_transport {R : Annot → Annot → Prop} :
    ∀ {p1 p2 : List (List Annot)}, PagesRel R p1 p2 → ∀ {x : Annot}, x ∈ p1.flatten →
      ∃ y, y ∈ p2.flatten ∧ R x y := by
  intro p1 p2 h
  induction h with
  | nil => intro x hx; simp at hx
  | cons hpg htail ih =>
    intro x hx
    rw [List.flatten_cons, List.mem_append] at hx
    rcases hx with hx | hx
    · clear ih htail
      induction hpg with
      | nil => simp at hx
      | cons hxy htail2 ih2 =>
        rcases List.mem_cons.mp hx with rfl | hx
        · exact ⟨_, mem_flatten_of_mem_head (List.mem_cons_self _ _), hxy⟩
        · rcases ih2 hx with ⟨y, hy, hr⟩
          rw [List.flatten_cons, List.mem_append] at hy
          rcases hy with hy | hy
          · exact ⟨y, mem_flatten_of_mem_head (List.mem_cons_of_mem _ hy), hr⟩
          · exact ⟨y, mem_flatten_of_mem_rest hy, hr⟩
    · rcases ih hx with ⟨y, hy, hr⟩
      exact ⟨y, mem_flatten_of_mem_rest hy, hr⟩

/-! ### Id uniqueness and the setAnnot characterization -/

def allIds (i : InstanceState) : List String :=
  (allAnns i).map (fun a => a.id)

/-- Well-formed instance states give every annotation a distinct id (the
SDK keys annotations by id). -/
def UniqueIds (i : InstanceState) : Prop :=
  (allIds i).Nodup

instance (i : InstanceState) : Decidable (UniqueIds i) :=
  inferInstanceAs (Decidable ((allIds i).Nodup))

theorem uniqueIds_inj {i : InstanceState} (hN : UniqueIds i) {x y : Annot}
    (hx : x ∈ allAnns i) (hy : y ∈ allAnns i) (hid : x.id = y.id) : x = y :=
  List.inj_on_of_nodup_map hN hx hy hid

/-- What instance.update does, pointwise: every stored annotation with the
updated annotation's id becomes the updated annotation, every other
annotation stays. -/
theorem setAnnot_pagesRel (i : InstanceState) (b : Annot) :
    PagesRel (fun x y => (x.id ≠ b.id ∧ y = x) ∨ (x.id = b.id ∧ y = b))
      i.pages (setAnnot i b).pages := by
  refine forall2_map_self ?_
  intro pg _
  refine forall2_map_self ?_
  intro x _
  by_cases h : x.id = b.id
  · exact Or.inr ⟨h, by simp [h]⟩
  · exact Or.inl ⟨h, by simp [h]⟩

theorem setAnnot_formFields (i : InstanceState) (b : Annot) :
    (setAnnot i b).formFields = i.formFields := rfl

/-- Relation between instance states along the event logic: form fields
unchanged, and every annotation pointwise AnnLe its successor. -/
def InstLe (i j : InstanceState) : Prop :=
  j.formFields = i.formFields ∧ PagesRel AnnLe i.pages j.pages

theorem instLe_refl (i : InstanceState) : InstLe i i :=
  ⟨rfl, pagesRel_refl fun x _ => annLe_refl x⟩

theorem instLe_trans {i j k : InstanceState} (h1 : InstLe i j) (h2 : InstLe j k) :
    InstLe i k :=
  ⟨h2.1.trans h1.1, pagesRel_compose h1.2 h2.2 fun _ _ _ _ => annLe_trans⟩

theorem pagesRel_annLe_ids_eq {ps qs : List (List Annot)}
    (h : PagesRel AnnLe ps qs) :
    qs.flatten.map (fun a => a.id) = ps.flatten.map (fun a => a.id) := by
  induction h with
  | nil => rfl
  | cons hpg _ ih =>
    rw [List.flatten_cons, List.flatten_cons, List.map_append, List.map_append, ih]
    congr 1
    clear ih
    induction hpg with
    | nil => rfl
    | cons hxy _ ih2 =>
      simp only [List.map_cons, ih2, annSkel_id hxy.1]

theorem instLe_allIds_eq {i j : InstanceState} (h : InstLe i j) : allIds j = allIds i :=
  pagesRel_annLe_ids_eq h.2

theorem instLe_uniqueIds {i j : InstanceState} (h : InstLe i j) (hN : UniqueIds i) :
    UniqueIds j := by
  unfold UniqueIds
  rw [instLe_allIds_eq h]
  exact hN

/-- instance.update is an InstLe step whenever the updated annotation
shares the skeleton of a stored annotation with its id, keeps customData
present, and does not clear a truthy isSigned. -/
theorem setAnnot_instLe {i : InstanceState} {b w : Annot}
    (hN : UniqueIds i) (hw : w ∈ allAnns i) (hid : b.id = w.id)
    (hsk : annSkel b = annSkel w) (hcd : b.customData.isSome = w.customData.isSome)
    (hsig : truthyIsSigned w = true → truthyIsSigned b = true) :
    InstLe i (setAnnot i b) := by
  refine ⟨rfl, pagesRel_mono (setAnnot_pagesRel i b) ?_⟩
  intro x y hx hr
  rcases hr with ⟨_, rfl⟩ | ⟨hxb, rfl⟩
  · exact annLe_refl _
  · have hxw : x = w := uniqueIds_inj hN hx hw (hxb.trans hid)
    subst hxw
    exact ⟨hsk, hcd, hsig⟩

theorem mem_setAnnot_of_ne {i : InstanceState} {b x : Annot}
    (hx : x ∈ allAnns i) (hne : x.id ≠ b.id) : x ∈ allAnns (setAnnot i b) := by
  rcases pagesRel_mem_transport (setAnnot_pagesRel i b) hx with ⟨y, hy, hr⟩
  rcases hr with ⟨_, rfl⟩ | ⟨hxb, _⟩
  · exact hy
  · exact absurd hxb hne

/-! ### The event handlers are InstLe steps -/

theorem resetActiveAnnot_active (d : DemoState) :
    (resetActiveAnnot d).1.activeAnnotationId = none := by
  unfold resetActiveAnnot
  cases hA : d.activeAnnotationId with
  | none => exact hA
  | some activeId =>
    dsimp only
    cases hf : findWidgetWithCD d.inst.pages
        (fun a => a.kind == AnnKind.widget && a.id == activeId) with
    | none => rfl
    | some wcd => cases wcd with | mk w cd => rfl

theorem resetActiveAnnot_none (d : DemoState) (h : d.activeAnnotationId = none) :
    resetActiveAnnot d = (d, []) := by
  unfold resetActiveAnnot
  rw [h]

theorem resetActiveAnnot_inst_cases (d : DemoState) {activeId : String}
    (h : d.activeAnnotationId = some activeId) :
    (resetActiveAnnot d).1.inst = d.inst
      ∨ ∃ b, b.id = activeId ∧ (resetActiveAnnot d).1.inst = setAnnot d.inst b := by
  unfold resetActiveAnnot
  rw [h]
  dsimp only
  cases hf : findWidgetWithCD d.inst.pages
      (fun a => a.kind == AnnKind.widget && a.id == activeId) with
  | none => exact Or.inl rfl
  | some wcd =>
    cases wcd with
    | mk w cd =>
      refine Or.inr ⟨{ w with customData := some { cd with clickedOnce := some false } }, ?_, rfl⟩
      have hp := (findWidgetWithCD_spec hf).2.1
      simp only [Bool.and_eq_true, beq_iff_eq] at hp
      exact hp.2

theorem resetActiveAnnot_instLe (d : DemoState) (hN : UniqueIds d.inst) :
    InstLe d.inst (resetActiveAnnot d).1.inst := by
  unfold resetActiveAnnot
  cases hA : d.activeAnnotationId with
  | none => exact instLe_refl _
  | some activeId =>
    dsimp only
    cases hf : findWidgetWithCD d.inst.pages
        (fun a => a.kind == AnnKind.widget && a.id == activeId) with
    | none => exact instLe_refl _
    | some wcd =>
      cases wcd with
      | mk w cd =>
        rcases findWidgetWithCD_spec hf with ⟨hm, _, hcd⟩
        refine setAnnot_instLe hN hm rfl rfl ?_ ?_
        · simp [hcd]
        · intro hs
          unfold truthyIsSigned at hs ⊢
          rw [hcd] at hs
          exact hs

theorem resetActiveAnnot_trace (d : DemoState) :
    (resetActiveAnnot d).2 = []
      ∨ ∃ aid c, (resetActiveAnnot d).2 = [SdkCall.update aid c] := by
  unfold resetActiveAnnot
  cases hA : d.activeAnnotationId with
  | none => exact Or.inl rfl
  | some activeId =>
    dsimp only
    cases hf : findWidgetWithCD d.inst.pages
        (fun a => a.kind == AnnKind.widget && a.id == activeId) with
    | none => exact Or.inl rfl
    | some wcd =>
      cases wcd with
      | mk w cd => exact Or.inr ⟨w.id, _, rfl⟩

theorem handleClick_instLe {d : DemoState} {a : Annot} {cd : CustomData}
    (hN : UniqueIds d.inst) (ha : a ∈ allAnns d.inst) (hcd : a.customData = some cd) :
    InstLe d.inst (handleClick a cd d).1.inst := by
  unfold handleClick
  by_cases hAct : d.activeAnnotationId = some a.id
  · rw [if_pos hAct]
    exact instLe_refl _
  · rw [if_neg hAct]
    have step2 : ∀ j : InstanceState, InstLe d.inst j → a ∈ allAnns j →
        InstLe d.inst (setAnnot j { a with customData := some { cd with clickedOnce := some true } }) := by
      intro j hij haj
      refine instLe_trans hij (setAnnot_instLe (instLe_uniqueIds hij hN) haj rfl rfl ?_ ?_)
      · simp [hcd]
      · intro hs
        unfold truthyIsSigned at hs ⊢
        rw [hcd] at hs
        exact hs
    cases hA : d.activeAnnotationId with
    | none =>
      dsimp only
      exact step2 d.inst (instLe_refl _) ha
    | some oldActive =>
      have hOld : oldActive ≠ a.id := fun h => hAct (by rw [hA, h])
      dsimp only
      have haj : a ∈ allAnns (resetActiveAnnot d).1.inst := by
        rcases resetActiveAnnot_inst_cases d hA with hsame | ⟨b, hbid, hset⟩
        · rw [hsame]; exact ha
        · rw [hset]
          exact mem_setAnnot_of_ne ha (by rw [hbid]; exact fun h => hOld h.symm)
      exact step2 _ (resetActiveAnnot_instLe d hN) haj

theorem markSignedWidget_instLe (i : InstanceState) (name : String) (hN : UniqueIds i) :
    InstLe i (markSignedWidget i name).1 := by
  unfold markSignedWidget
  cases hf : findWidgetWithCD i.pages
      (fun a => a.kind == AnnKind.widget && a.formFieldName == some name) with
  | none => exact instLe_refl _
  | some wcd =>
    cases wcd with
    | mk w cd =>
      rcases findWidgetWithCD_spec hf with ⟨hm, _, hcd⟩
      refine setAnnot_instLe hN hm rfl rfl ?_ ?_
      · simp [hcd]
      · intro _
        unfold truthyIsSigned
        simp [truthy]

theorem pollFold_instLe (ov : String → Nat) :
    ∀ (fs : List FormField) (i j : InstanceState) (cs : List SdkCall),
      InstLe i j → UniqueIds i →
      InstLe i (List.foldl
        (fun acc f =>
          if f.kind = FieldKind.signatureField ∧ 0 < ov f.name then
            let r := markSignedWidget acc.1 f.name
            (r.1, acc.2 ++ r.2)
          else acc)
        (j, cs) fs).1 := by
  intro fs
  induction fs with
  | nil => intro i j cs hij _; exact hij
  | cons f fs ih =>
    intro i j cs hij hN
    rw [List.foldl_cons]
    by_cases h : f.kind = FieldKind.signatureField ∧ 0 < ov f.name
    · rw [if_pos h]
      exact ih i _ _ (instLe_trans hij (markSignedWidget_instLe j f.name (instLe_uniqueIds hij hN))) hN
    · rw [if_neg h]
      exact ih i j cs hij hN

theorem updateSignedFieldOverlays_instLe (ov : String → Nat) (i : InstanceState)
    (hN : UniqueIds i) :
    InstLe i (updateSignedFieldOverlays ov i).1 := by
  unfold updateSignedFieldOverlays
  exact pollFold_instLe ov i.formFields i i [] (instLe_refl i) hN

theorem step_instLe (e : DemoEvent) (d : DemoState) (hN : UniqueIds d.inst) :
    InstLe d.inst (step e d).inst := by
  cases e with
  | overlayPointerDown annId =>
    unfold step stepTr
    dsimp only
    cases hl : lookupAnn d.inst annId with
    | none => exact resetActiveAnnot_instLe d hN
    | some a =>
      dsimp only
      by_cases hrs : (renderAnnot a).isSome
      · rw [if_pos hrs]
        cases hcd : a.customData with
        | none => exact resetActiveAnnot_instLe d hN
        | some cd =>
          exact handleClick_instLe hN (findAnnPages_spec hl).1 hcd
      · rw [if_neg hrs]
        exact resetActiveAnnot_instLe d hN
  | containerPointerDown =>
    unfold step stepTr handleClickElsewhere
    exact resetActiveAnnot_instLe d hN
  | selectionChange =>
    unfold step stepTr
    exact resetActiveAnnot_instLe d hN
  | runPoll ov =>
    unfold step stepTr
    exact updateSignedFieldOverlays_instLe ov d.inst hN

theorem runEvents_instLe (evs : List DemoEvent) (d : DemoState) (hN : UniqueIds d.inst) :
    InstLe d.inst (runEvents evs d).inst := by
  induction evs generalizing d with
  | nil => exact instLe_refl _
  | cons e evs ih =>
    unfold runEvents
    rw [List.foldl_cons]
    have h1 := step_instLe e d hN
    have h2 := ih (step e d) (instLe_uniqueIds h1 hN)
    exact instLe_trans h1 h2

/-! ### Lookup after an update, and lookup transport along InstLe -/

theorem find?_map_replace_self (pg : List Annot) (b : Annot) :
    (pg.map (fun x => if x.id = b.id then b else x)).find? (fun y => y.id == b.id)
      = (pg.find? (fun y => y.id == b.id)).map (fun _ => b) := by
  induction pg with
  | nil => rfl
  | cons x pg ih =>
    by_cases h : x.id = b.id
    · rw [List.map_cons, if_pos h]
      rw [List.find?_cons_of_pos _ (by simp), List.find?_cons_of_pos _ (by simp [h])]
      rfl
    · rw [List.map_cons, if_neg h]
      rw [List.find?_cons_of_neg _ (by simp [h]), List.find?_cons_of_neg _ (by simp [h])]
      exact ih

theorem find?_map_replace_ne (pg : List Annot) (b : Annot) (annId : String)
    (h : annId ≠ b.id) :
    (pg.map (fun x => if x.id = b.id then b else x)).find? (fun y => y.id == annId)
      = pg.find? (fun y => y.id == annId) := by
  induction pg with
  | nil => rfl
  | cons x pg ih =>
    by_cases hx : x.id = b.id
    · rw [List.map_cons, if_pos hx]
      rw [List.find?_cons_of_neg _ (by simp; exact fun hh => h hh.symm),
        List.find?_cons_of_neg _ (by simp [hx]; exact fun hh => h hh.symm)]
      exact ih
    · rw [List.map_cons, if_neg hx]
      by_cases hxa : x.id = annId
      · rw [List.find?_cons_of_pos _ (by simp [hxa]), List.find?_cons_of_pos _ (by simp [hxa])]
      · rw [List.find?_cons_of_neg _ (by simp [hxa]), List.find?_cons_of_neg _ (by simp [hxa])]
        exact ih

theorem findAnnPages_map_replace_self (ps : List (List Annot)) (b : Annot)
    (h : (findAnnPages ps b.id).isSome) :
    findAnnPages (ps.map (fun pg => pg.map (fun x => if x.id = b.id then b else x))) b.id
      = some b := by
  induction ps with
  | nil => simp [findAnnPages] at h
  | cons pg rest ih =>
    rw [List.map_cons, findAnnPages, find?_map_replace_self]
    rw [findAnnPages] at h
    cases hf : pg.find? (fun y => y.id == b.id) with
    | none =>
      rw [hf] at h
      exact ih h
    | some x => rfl

theorem lookupAnn_setAnnot_self {i : InstanceState} {b : Annot}
    (h : (lookupAnn i b.id).isSome) :
    lookupAnn (setAnnot i b) b.id = some b :=
  findAnnPages_map_replace_self i.pages b h

theorem findAnnPages_map_replace_ne (ps : List (List Annot)) (b : Annot) (annId : String)
    (h : annId ≠ b.id) :
    findAnnPages (ps.map (fun pg => pg.map (fun x => if x.id = b.id then b else x))) annId
      = findAnnPages ps annId := by
  induction ps with
  | nil => rfl
  | cons pg rest ih =>
    rw [List.map_cons, findAnnPages, find?_map_replace_ne pg b annId h, findAnnPages]
    cases hf : pg.find? (fun y => y.id == annId) with
    | none => exact ih
    | some x => rfl

theorem lookupAnn_setAnnot_ne {i : InstanceState} {b : Annot} {annId : String}
    (h : annId ≠ b.id) :
    lookupAnn (setAnnot i b) annId = lookupAnn i annId :=
  findAnnPages_map_replace_ne i.pages b annId h

theorem annLe_pred_id {x y : Annot} (h : AnnLe x y) (annId : String) :
    (y.id == annId) = (x.id == annId) := by
  rw [annSkel_id h.1]

theorem forall2_find?_id_some {pg qg : List Annot} (h : List.Forall₂ AnnLe pg qg)
    (annId : String) :
    ∀ {x : Annot}, pg.find? (fun y => y.id == annId) = some x →
      ∃ z, qg.find? (fun y => y.id == annId) = some z ∧ AnnLe x z := by
  induction h with
  | nil => intro x hx; simp at hx
  | cons hxy htail ih =>
    intro x hx
    rename_i x0 y0 pg0 qg0
    by_cases hp : (x0.id == annId) = true
    · rw [List.find?_cons_of_pos _ (by exact hp), Option.some.injEq] at hx
      subst hx
      exact ⟨y0, List.find?_cons_of_pos _ (by rw [annLe_pred_id hxy]; exact hp), hxy⟩
    · rw [List.find?_cons_of_neg _ (by exact hp)] at hx
      rcases ih hx with ⟨z, hz, hr⟩
      refine ⟨z, ?_, hr⟩
      rw [List.find?_cons_of_neg _ (by rw [annLe_pred_id hxy]; exact hp)]
      exact hz

theorem forall2_find?_id_none {pg qg : List Annot} (h : List.Forall₂ AnnLe pg qg)
    (annId : String)
    (hn : pg.find? (fun y => y.id == annId) = none) :
    qg.find? (fun y => y.id == annId) = none := by
  induction h with
  | nil => rfl
  | cons hxy htail ih =>
    rename_i x0 y0 pg0 qg0
    by_cases hp : (x0.id == annId) = true
    · rw [List.find?_cons_of_pos _ (by exact hp)] at hn
      exact absurd hn (by simp)
    · rw [List.find?_cons_of_neg _ (by exact hp)] at hn
      rw [List.find?_cons_of_neg _ (by rw [annLe_pred_id hxy]; exact hp)]
      exact ih hn

theorem findAnnPages_transport {ps qs : List (List Annot)} (h : PagesRel AnnLe ps qs)
    {annId : String} {x : Annot}
    (hl : findAnnPages ps annId = some x) :
    ∃ z, findAnnPages qs annId = some z ∧ AnnLe x z := by
  induction h with
  | nil => simp [findAnnPages] at hl
  | cons hpg htail ih =>
    rename_i pg0 qg0 ps0 qs0
    rw [findAnnPages] at hl
    cases hf : pg0.find? (fun y => y.id == annId) with
    | none =>
      rw [hf] at hl
      rcases ih hl with ⟨z, hz, hr⟩
      refine ⟨z, ?_, hr⟩
      rw [findAnnPages, forall2_find?_id_none hpg annId hf]
      exact hz
    | some x0 =>
      rw [hf, Option.some.injEq] at hl
      subst hl
      rcases forall2_find?_id_some hpg annId hf with ⟨z, hz, hr⟩
      exact ⟨z, by rw [findAnnPages, hz], hr⟩

/-! ### Claims C5 and C6: isSigned is absorbing, updates touch only customData -/

/-- Whether the annotation stored under the given id currently has a
truthy isSigned flag. -/
def isSignedAt (d : DemoState) (annId : String) : Bool :=
  match lookupAnn d.inst annId with
  | some a => truthyIsSigned a
  | none => false

/-- C5: the per-annotation signature states only move forward; in
particular "signed" is absorbing: once a stored annotation has a truthy
isSigned flag, no sequence of demo events (pointer-downs on overlays,
pointer-downs elsewhere, selection changes, poll runs) ever makes it
non-truthy again, because every customData update of the handlers spreads
the old bag (and the poll only ever sets isSigned to true). -/
theorem claim_C5_signed_absorbing (d : DemoState) (annId : String) (evs : List DemoEvent)
    (hN : UniqueIds d.inst) (h : isSignedAt d annId = true) :
    isSignedAt (runEvents evs d) annId = true := by
  have hLe := runEvents_instLe evs d hN
  unfold isSignedAt at h ⊢
  cases hl : lookupAnn d.inst annId with
  | none => rw [hl] at h; exact absurd h (by simp)
  | some a =>
    rw [hl] at h
    rcases findAnnPages_transport hLe.2 hl with ⟨z, hz, hr⟩
    have hz2 : lookupAnn (runEvents evs d).inst annId = some z := hz
    rw [hz2]
    exact hr.2.2 h

/-- Witness state: two signature widgets on one page (the second already
signed), with their two signature form fields. -/
def cdSig1 : CustomData :=
  { ctype := some "signature", signerName := some "John Doe", signerColor := some "#4A90E2" }

def annSig1 : Annot :=
  { id := "sig-1", kind := AnnKind.widget, pageIndex := 0
  , boundingBox := { left := 96, top := 300, width := 150, height := 50 }
  , formFieldName := some "sig-1", customData := some cdSig1 }

def cdSig2 : CustomData :=
  { ctype := some "signature", signerName := some "Jane Smith", signerColor := some "#7B68EE"
  , isSigned := some true, clickedOnce := some false }

def annSig2 : Annot :=
  { id := "sig-2", kind := AnnKind.widget, pageIndex := 0
  , boundingBox := { left := 318, top := 300, width := 150, height := 50 }
  , formFieldName := some "sig-2", customData := some cdSig2 }

def demoW : DemoState :=
  { inst := { pages := [[annSig1, annSig2]]
            , formFields := [mkSigField "sig-1", mkSigField "sig-2"] }
  , activeAnnotationId := none }

theorem claim_C5_witness :
    UniqueIds demoW.inst ∧ isSignedAt demoW "sig-2" = true
      ∧ isSignedAt (runEvents
          [ DemoEvent.overlayPointerDown "sig-1"
          , DemoEvent.containerPointerDown
          , DemoEvent.runPoll (fun _ => 1) ] demoW) "sig-2" = true :=
  ⟨by decide, by decide,
    claim_C5_signed_absorbing demoW "sig-2" _ (by decide) (by decide)⟩

/-- C6: every step of the two-click event logic (first click, reset on
click elsewhere or deselection, poll marking) leaves the form fields and
every annotation property other than customData — id, kind, pageIndex,
formFieldName, boundingBox — unchanged, for every annotation of every
page. -/
theorem claim_C6_updates_only_customData (e : DemoEvent) (d : DemoState)
    (hN : UniqueIds d.inst) :
    (step e d).inst.formFields = d.inst.formFields
      ∧ PagesRel (fun x y => annSkel y = annSkel x) d.inst.pages (step e d).inst.pages := by
  have h := step_instLe e d hN
  exact ⟨h.1, pagesRel_mono h.2 fun _ _ _ hr => hr.1⟩

theorem claim_C6_witness :
    UniqueIds demoW.inst
      ∧ ((step (DemoEvent.overlayPointerDown "sig-1") demoW).inst.formFields
          = demoW.inst.formFields
        ∧ PagesRel (fun x y => annSkel y = annSkel x) demoW.inst.pages
            (step (DemoEvent.overlayPointerDown "sig-1") demoW).inst.pages) :=
  ⟨by decide, claim_C6_updates_only_customData (DemoEvent.overlayPointerDown "sig-1") demoW (by decide)⟩

theorem truthy_some (b : Bool) : truthy (some b) = b := rfl

theorem truthy_none : truthy none = false := rfl

/-! ### Claim C1: first pointer-down on an unsigned, unclicked signature widget -/

/-- C1: a pointer-down on the overlay of a widget annotation whose
customData type is "signature", with isSigned and clickedOnce both not
truthy, while it is not the active annotation, stores its id as the active
one and issues an instance.update whose customData is the old bag with
clickedOnce set to true; the rendered overlay text for the stored
annotation switches from "sign here" to "click to sign". -/
theorem claim_C1_first_click (d : DemoState) (a : Annot) (cd : CustomData)
    (hlook : lookupAnn d.inst a.id = some a)
    (hk : a.kind = AnnKind.widget)
    (hcd : a.customData = some cd)
    (hty : cd.ctype = some "signature")
    (hns : truthy cd.isSigned = false)
    (hnc : truthy cd.clickedOnce = false)
    (hact : d.activeAnnotationId ≠ some a.id) :
    (stepTr (DemoEvent.overlayPointerDown a.id) d).1.activeAnnotationId = some a.id
    ∧ SdkCall.update a.id { cd with clickedOnce := some true }
        ∈ (stepTr (DemoEvent.overlayPointerDown a.id) d).2
    ∧ renderAnnot a = some
        { className := "signature-overlay"
        , dataFormFieldName := a.formFieldName.getD ""
        , text := "sign here" }
    ∧ lookupAnn (stepTr (DemoEvent.overlayPointerDown a.id) d).1.inst a.id
        = some { a with customData := some { cd with clickedOnce := some true } }
    ∧ renderAnnot { a with customData := some { cd with clickedOnce := some true } } = some
        { className := "signature-overlay clicked"
        , dataFormFieldName := a.formFieldName.getD ""
        , text := "click to sign" } := by
  have hrend : renderAnnot a = some
      { className := "signature-overlay"
      , dataFormFieldName := a.formFieldName.getD ""
      , text := "sign here" } := by
    unfold renderAnnot
    rw [hcd]
    simp [hk, hty, hns, hnc]
  have hrend2 : renderAnnot { a with customData := some { cd with clickedOnce := some true } }
      = some
        { className := "signature-overlay clicked"
        , dataFormFieldName := a.formFieldName.getD ""
        , text := "click to sign" } := by
    unfold renderAnnot
    simp [hk, hty, hns, truthy_some]
  have hstep : stepTr (DemoEvent.overlayPointerDown a.id) d = handleClick a cd d := by
    unfold stepTr
    dsimp only
    rw [hlook]
    dsimp only
    rw [if_pos (by rw [hrend]; rfl), hcd]
  rw [hstep]
  unfold handleClick
  rw [if_neg hact]
  have hIsSome : (lookupAnn d.inst a.id).isSome := by rw [hlook]; rfl
  cases hA : d.activeAnnotationId with
  | none =>
    dsimp only
    exact ⟨rfl, by simp, hrend, lookupAnn_setAnnot_self hIsSome, hrend2⟩
  | some oldActive =>
    have hOld : oldActive ≠ a.id := fun hcontra => hact (by rw [hA, hcontra])
    dsimp only
    refine ⟨rfl, by simp, hrend, ?_, hrend2⟩
    rcases resetActiveAnnot_inst_cases d hA with hsame | ⟨br, hbid, hset⟩
    · rw [hsame]
      exact lookupAnn_setAnnot_self hIsSome
    · rw [hset]
      refine lookupAnn_setAnnot_self ?_
      have hne : a.id ≠ br.id := by rw [hbid]; exact fun h => hOld h.symm
      rw [lookupAnn_setAnnot_ne hne, hlook]
      rfl

theorem claim_C1_witness :
    (stepTr (DemoEvent.overlayPointerDown annSig1.id) demoW).1.activeAnnotationId
        = some annSig1.id
    ∧ SdkCall.update annSig1.id { cdSig1 with clickedOnce := some true }
        ∈ (stepTr (DemoEvent.overlayPointerDown annSig1.id) demoW).2
    ∧ renderAnnot annSig1 = some
        { className := "signature-overlay"
        , dataFormFieldName := annSig1.formFieldName.getD ""
        , text := "sign here" }
    ∧ lookupAnn (stepTr (DemoEvent.overlayPointerDown annSig1.id) demoW).1.inst annSig1.id
        = some { annSig1 with customData := some { cdSig1 with clickedOnce := some true } }
    ∧ renderAnnot { annSig1 with customData := some { cdSig1 with clickedOnce := some true } }
        = some
          { className := "signature-overlay clicked"
          , dataFormFieldName := annSig1.formFieldName.getD ""
          , text := "click to sign" } :=
  claim_C1_first_click demoW annSig1 cdSig1 (by decide) rfl rfl rfl rfl rfl (by decide)

/-! ### Claim C2: second pointer-down opens the signing UI iff still flagged -/

/-- C2: a pointer-down on a rendered signature overlay calls
setSelectedAnnotations with exactly that annotation's id and changes
nothing (state and customData untouched) if and only if the annotation is
still the active (flagged) one; when the flag was cleared in the meantime
the same pointer-down behaves like a first click instead: it re-activates
the widget, issues the clickedOnce update, and does not open the signing
UI. -/
theorem claim_C2_second_click (d : DemoState) (a : Annot) (cd : CustomData)
    (hlook : lookupAnn d.inst a.id = some a)
    (hk : a.kind = AnnKind.widget)
    (hcd : a.customData = some cd)
    (hty : cd.ctype = some "signature")
    (hns : truthy cd.isSigned = false) :
    (stepTr (DemoEvent.overlayPointerDown a.id) d
        = (d, [SdkCall.setSelectedAnnotations [a.id]])
      ↔ d.activeAnnotationId = some a.id)
    ∧ (d.activeAnnotationId ≠ some a.id →
        (stepTr (DemoEvent.overlayPointerDown a.id) d).1.activeAnnotationId = some a.id
        ∧ SdkCall.update a.id { cd with clickedOnce := some true }
            ∈ (stepTr (DemoEvent.overlayPointerDown a.id) d).2
        ∧ SdkCall.setSelectedAnnotations [a.id]
            ∉ (stepTr (DemoEvent.overlayPointerDown a.id) d).2) := by
  have hrendSome : (renderAnnot a).isSome := by
    unfold renderAnnot
    rw [hcd]
    simp [hk, hty, hns]
  have hstep : stepTr (DemoEvent.overlayPointerDown a.id) d = handleClick a cd d := by
    unfold stepTr
    dsimp only
    rw [hlook]
    dsimp only
    rw [if_pos hrendSome, hcd]
  rw [hstep]
  unfold handleClick
  constructor
  · constructor
    · intro heq
      by_contra hact
      rw [if_neg hact] at heq
      cases hA : d.activeAnnotationId with
      | none =>
        rw [hA] at heq
        dsimp only at heq
        have htr := congrArg Prod.snd heq
        simp at htr
      | some oldActive =>
        rw [hA] at heq
        dsimp only at heq
        have htr := congrArg Prod.snd heq
        dsimp only at htr
        rcases resetActiveAnnot_trace d with hT | ⟨aid, c, hT⟩
        · rw [hT] at htr; simp at htr
        · rw [hT] at htr; simp at htr
    · intro hA
      rw [if_pos hA]
  · intro hact
    rw [if_neg hact]
    cases hA : d.activeAnnotationId with
    | none =>
      dsimp only
      exact ⟨rfl, by simp, by simp⟩
    | some oldActive =>
      dsimp only
      refine ⟨rfl, by simp, ?_⟩
      rcases resetActiveAnnot_trace d with hT | ⟨aid, c, hT⟩
      · rw [hT]; simp
      · rw [hT]; simp

/-- The witness state for the second click: same instance, with the first
signature widget currently active. -/
def demoW2 : DemoState :=
  { demoW with activeAnnotationId := some "sig-1" }

theorem claim_C2_witness :
    (stepTr (DemoEvent.overlayPointerDown annSig1.id) demoW2
        = (demoW2, [SdkCall.setSelectedAnnotations [annSig1.id]])
      ↔ demoW2.activeAnnotationId = some annSig1.id)
    ∧ (demoW2.activeAnnotationId ≠ some annSig1.id →
        (stepTr (DemoEvent.overlayPointerDown annSig1.id) demoW2).1.activeAnnotationId
            = some annSig1.id
        ∧ SdkCall.update annSig1.id { cdSig1 with clickedOnce := some true }
            ∈ (stepTr (DemoEvent.overlayPointerDown annSig1.id) demoW2).2
        ∧ SdkCall.setSelectedAnnotations [annSig1.id]
            ∉ (stepTr (DemoEvent.overlayPointerDown annSig1.id) demoW2).2) :=
  claim_C2_second_click demoW2 annSig1 cdSig1 (by decide) rfl rfl rfl rfl

/-! ### Claim C8: at most one annotation is in "click to sign" state -/

theorem flatten_map_map (g : Annot → Annot) :
    ∀ ps : List (List Annot), (ps.map (List.map g)).flatten = ps.flatten.map g := by
  intro ps
  induction ps with
  | nil => rfl
  | cons pg rest ih =>
    rw [List.map_cons, List.flatten_cons, List.flatten_cons, List.map_append, ih]

theorem allAnns_setAnnot (i : InstanceState) (b : Annot) :
    allAnns (setAnnot i b) = (allAnns i).map (fun x => if x.id = b.id then b else x) :=
  flatten_map_map _ i.pages

/-- The invariant: every stored annotation with a truthy clickedOnce flag
is a widget and is the one the active ref points to. -/
def InvI (i : InstanceState) (act : Option String) : Prop :=
  ∀ x ∈ allAnns i, truthyClickedOnce x = true →
    x.kind = AnnKind.widget ∧ act = some x.id

def AtMostOneClicked (d : DemoState) : Prop :=
  InvI d.inst d.activeAnnotationId

instance (i : InstanceState) (act : Option String) : Decidable (InvI i act) :=
  inferInstanceAs (Decidable (∀ x ∈ allAnns i, _ → _ ∧ _))

instance (d : DemoState) : Decidable (AtMostOneClicked d) :=
  inferInstanceAs (Decidable (InvI d.inst d.activeAnnotationId))

theorem renderAnnot_isSome_spec {a : Annot} (h : (renderAnnot a).isSome) :
    a.kind = AnnKind.widget
      ∧ ∃ cd, a.customData = some cd ∧ cd.ctype = some "signature"
          ∧ truthy cd.isSigned = false := by
  unfold renderAnnot at h
  by_cases hk : a.kind = AnnKind.widget
  · refine ⟨hk, ?_⟩
    rw [if_neg (by rw [hk]; exact fun hc => hc rfl)] at h
    cases hcd : a.customData with
    | none => rw [hcd] at h; exact absurd h (by simp)
    | some cd =>
      rw [hcd] at h
      dsimp only at h
      refine ⟨cd, rfl, ?_, ?_⟩
      · by_cases hty : cd.ctype = some "signature"
        · exact hty
        · rw [if_pos (by exact hty)] at h
          exact absurd h (by simp)
      · by_cases hty : cd.ctype = some "signature"
        · rw [if_neg (by exact fun hc => hc hty)] at h
          by_cases hs : truthy cd.isSigned
          · rw [if_pos hs] at h
            exact absurd h (by simp)
          · simpa using hs
        · rw [if_pos (by exact hty)] at h
          exact absurd h (by simp)
  · rw [if_pos (by exact fun hc => hk hc)] at h
    exact absurd h (by simp)

/-- After resetActiveAnnotation no annotation has a truthy clickedOnce,
provided the invariant held. -/
theorem resetActiveAnnot_clears (d : DemoState) (hN : UniqueIds d.inst)
    (hInv : AtMostOneClicked d) :
    ∀ x ∈ allAnns (resetActiveAnnot d).1.inst, truthyClickedOnce x = false := by
  intro x hx
  cases hA : d.activeAnnotationId with
  | none =>
    rw [resetActiveAnnot_none d hA] at hx
    by_contra hb
    rw [Bool.not_eq_false] at hb
    have := (hInv x hx hb).2
    rw [hA] at this
    cases this
  | some activeId =>
    unfold resetActiveAnnot at hx
    rw [hA] at hx
    dsimp only at hx
    cases hf : findWidgetWithCD d.inst.pages
        (fun a => a.kind == AnnKind.widget && a.id == activeId) with
    | none =>
      rw [hf] at hx
      dsimp only at hx
      by_contra hb
      rw [Bool.not_eq_false] at hb
      have hxw := hInv x hx hb
      have hxid : x.id = activeId := by
        have := hxw.2
        rw [hA] at this
        injection this with hh
        exact hh.symm
      have hxcd : ∃ cdx, x.customData = some cdx := by
        unfold truthyClickedOnce at hb
        cases hcdx : x.customData with
        | none => rw [hcdx] at hb; cases hb
        | some cdx => exact ⟨cdx, rfl⟩
      rcases hxcd with ⟨cdx, hxcd⟩
      have := @findWidgetWithCD_complete d.inst.pages
        (fun a => a.kind == AnnKind.widget && a.id == activeId) x cdx
        hx (by simp [hxw.1, hxid]) hxcd
        (fun y hy hpy => by
          simp only [Bool.and_eq_true, beq_iff_eq] at hpy
          exact uniqueIds_inj hN hy hx (hpy.2.trans hxid.symm))
      rw [this] at hf
      cases hf
    | some wcd =>
      cases wcd with
      | mk w cd =>
        rw [hf] at hx
        dsimp only at hx
        rw [allAnns_setAnnot] at hx
        rcases List.mem_map.mp hx with ⟨x0, hx0, hgx⟩
        by_cases hid : x0.id = w.id
        · rw [if_pos hid] at hgx
          rw [← hgx]
          unfold truthyClickedOnce
          simp [truthy]
        · rw [if_neg hid] at hgx
          subst hgx
          by_contra hb
          rw [Bool.not_eq_false] at hb
          have hxw := hInv x0 hx0 hb
          have hxid : x0.id = activeId := by
            have := hxw.2
            rw [hA] at this
            injection this with hh
            exact hh.symm
          have hwid : w.id = activeId := by
            have hp := (findWidgetWithCD_spec hf).2.1
            simp only [Bool.and_eq_true, beq_iff_eq] at hp
            exact hp.2
          exact hid (hxid.trans hwid.symm)

theorem resetActiveAnnot_atMostOne (d : DemoState) (hN : UniqueIds d.inst)
    (hInv : AtMostOneClicked d) :
    AtMostOneClicked (resetActiveAnnot d).1 := by
  intro x hx htr
  have := resetActiveAnnot_clears d hN hInv x hx
  rw [htr] at this
  cases this

theorem handleClick_atMostOne {d : DemoState} {a : Annot} {cd : CustomData}
    (hN : UniqueIds d.inst) (hInv : AtMostOneClicked d)
    (hk : a.kind = AnnKind.widget) :
    AtMostOneClicked (handleClick a cd d).1 := by
  unfold handleClick
  by_cases hAct : d.activeAnnotationId = some a.id
  · rw [if_pos hAct]
    exact hInv
  · rw [if_neg hAct]
    have key : ∀ j : InstanceState,
        (∀ x ∈ allAnns j, truthyClickedOnce x = false) →
        InvI (setAnnot j { a with customData := some { cd with clickedOnce := some true } })
          (some a.id) := by
      intro j hclear x hx htr
      rw [allAnns_setAnnot] at hx
      rcases List.mem_map.mp hx with ⟨x0, hx0, hgx⟩
      by_cases hid : x0.id = a.id
      · rw [if_pos hid] at hgx
        subst hgx
        exact ⟨hk, rfl⟩
      · rw [if_neg hid] at hgx
        subst hgx
        have := hclear x0 hx0
        rw [htr] at this
        cases this
    cases hA : d.activeAnnotationId with
    | none =>
      dsimp only
      refine key d.inst ?_
      intro x hx
      by_contra hb
      rw [Bool.not_eq_false] at hb
      have := (hInv x hx hb).2
      rw [hA] at this
      cases this
    | some oldActive =>
      dsimp only
      exact key _ (resetActiveAnnot_clears d hN hInv)

theorem markSignedWidget_invI (i : InstanceState) (name : String) (act : Option String)
    (h : InvI i act) : InvI (markSignedWidget i name).1 act := by
  unfold markSignedWidget
  cases hf : findWidgetWithCD i.pages
      (fun a => a.kind == AnnKind.widget && a.formFieldName == some name) with
  | none => exact h
  | some wcd =>
    cases wcd with
    | mk w cd =>
      intro x hx htr
      rw [allAnns_setAnnot] at hx
      rcases List.mem_map.mp hx with ⟨x0, hx0, hgx⟩
      by_cases hid : x0.id = w.id
      · rw [if_pos hid] at hgx
        rw [← hgx] at htr
        unfold truthyClickedOnce at htr
        simp [truthy] at htr
      · rw [if_neg hid] at hgx
        subst hgx
        exact h x0 hx0 htr

theorem pollFold_invI (ov : String → Nat) :
    ∀ (fs : List FormField) (j : InstanceState) (cs : List SdkCall) (act : Option String),
      InvI j act →
      InvI (List.foldl
        (fun acc f =>
          if f.kind = FieldKind.signatureField ∧ 0 < ov f.name then
            let r := markSignedWidget acc.1 f.name
            (r.1, acc.2 ++ r.2)
          else acc)
        (j, cs) fs).1 act := by
  intro fs
  induction fs with
  | nil => intro j cs act h; exact h
  | cons f fs ih =>
    intro j cs act h
    rw [List.foldl_cons]
    by_cases hc : f.kind = FieldKind.signatureField ∧ 0 < ov f.name
    · rw [if_pos hc]
      exact ih _ _ act (markSignedWidget_invI j f.name act h)
    · rw [if_neg hc]
      exact ih j cs act h

theorem step_atMostOne (e : DemoEvent) (d : DemoState) (hN : UniqueIds d.inst)
    (hInv : AtMostOneClicked d) : AtMostOneClicked (step e d) := by
  cases e with
  | overlayPointerDown annId =>
    unfold step stepTr
    dsimp only
    cases hl : lookupAnn d.inst annId with
    | none => exact resetActiveAnnot_atMostOne d hN hInv
    | some a =>
      dsimp only
      by_cases hrs : (renderAnnot a).isSome
      · rw [if_pos hrs]
        cases hcd : a.customData with
        | none => exact resetActiveAnnot_atMostOne d hN hInv
        | some cd =>
          exact handleClick_atMostOne hN hInv (renderAnnot_isSome_spec hrs).1
      · rw [if_neg hrs]
        exact resetActiveAnnot_atMostOne d hN hInv
  | containerPointerDown =>
    unfold step stepTr handleClickElsewhere
    exact resetActiveAnnot_atMostOne d hN hInv
  | selectionChange =>
    unfold step stepTr
    exact resetActiveAnnot_atMostOne d hN hInv
  | runPoll ov =>
    unfold step stepTr updateSignedFieldOverlays
    exact pollFold_invI ov d.inst.formFields d.inst [] d.activeAnnotationId hInv

/-- C8: under sequential event handling, at most one annotation is in
"click to sign" state at any time: the active ref holds at most one id,
and along any event sequence every annotation with a truthy clickedOnce
flag is a widget whose id is exactly the active one — in particular no two
distinct stored annotations ever have clickedOnce truthy simultaneously. -/
theorem claim_C8_at_most_one_active (d : DemoState) (evs : List DemoEvent)
    (hN : UniqueIds d.inst) (hInv : AtMostOneClicked d) :
    AtMostOneClicked (runEvents evs d)
    ∧ ∀ x y, x ∈ allAnns (runEvents evs d).inst → y ∈ allAnns (runEvents evs d).inst →
        truthyClickedOnce x = true → truthyClickedOnce y = true → x = y := by
  have hrun : AtMostOneClicked (runEvents evs d) ∧ UniqueIds (runEvents evs d).inst := by
    induction evs generalizing d with
    | nil => exact ⟨hInv, hN⟩
    | cons e evs ih =>
      unfold runEvents
      rw [List.foldl_cons]
      exact ih (step e d) (instLe_uniqueIds (step_instLe e d hN) hN) (step_atMostOne e d hN hInv)
  refine ⟨hrun.1, ?_⟩
  intro x y hx hy htx hty
  have hxid := (hrun.1 x hx htx).2
  have hyid := (hrun.1 y hy hty).2
  rw [hxid] at hyid
  injection hyid with hh
  exact uniqueIds_inj hrun.2 hx hy hh

theorem claim_C8_witness :
    UniqueIds demoW.inst ∧ AtMostOneClicked demoW
    ∧ (AtMostOneClicked (runEvents [DemoEvent.overlayPointerDown "sig-1"] demoW)
      ∧ ∀ x y, x ∈ allAnns (runEvents [DemoEvent.overlayPointerDown "sig-1"] demoW).inst →
          y ∈ allAnns (runEvents [DemoEvent.overlayPointerDown "sig-1"] demoW).inst →
          truthyClickedOnce x = true → truthyClickedOnce y = true → x = y) :=
  ⟨by decide, by decide,
    claim_C8_at_most_one_active demoW [DemoEvent.overlayPointerDown "sig-1"] (by decide) (by decide)⟩

/-! ### Claim C9: the renderer returns null for all other annotations -/

/-- The value of "annotation.customData?.type". -/
def cdType (a : Annot) : Option String :=
  match a.customData with
  | some cd => cd.ctype
  | none => none

/-- C9: for every annotation that is not a widget annotation whose
customData type is "signature" (extended variant: "signature" or
"text-field"), the custom Annotation renderer returns null, so such
annotations get no overlay node and no capture-phase pointer handler. -/
theorem claim_C9_renderer_null_for_others :
    (∀ a : Annot, ¬(a.kind = AnnKind.widget ∧ cdType a = some "signature") →
      renderAnnot a = none)
    ∧ (∀ a : Annot,
        ¬(a.kind = AnnKind.widget
          ∧ (cdType a = some "signature" ∨ cdType a = some "text-field")) →
      renderAnnotExt a = none) := by
  constructor
  · intro a h
    unfold renderAnnot
    by_cases hk : a.kind = AnnKind.widget
    · rw [if_neg (by rw [hk]; exact fun hc => hc rfl)]
      cases hcd : a.customData with
      | none => rfl
      | some cd =>
        dsimp only
        rw [if_pos ?_]
        intro hty
        exact h ⟨hk, by unfold cdType; rw [hcd]; exact hty⟩
    · rw [if_pos (by exact fun hc => hk hc)]
  · intro a h
    unfold renderAnnotExt
    by_cases hk : a.kind = AnnKind.widget
    · rw [if_neg (by rw [hk]; exact fun hc => hc rfl)]
      cases hcd : a.customData with
      | none => rfl
      | some cd =>
        dsimp only
        rw [if_neg ?_, if_pos ?_]
        · intro hty
          exact h ⟨hk, Or.inl (by unfold cdType; rw [hcd]; exact hty)⟩
        · intro hty
          exact h ⟨hk, Or.inr (by unfold cdType; rw [hcd]; exact hty)⟩
    · rw [if_pos (by exact fun hc => hk hc)]

theorem claim_C9_witness :
    renderAnnot (createLabel "lbl-1" "Full Name:" 50 52 100) = none
    ∧ renderAnnotExt (createLabel "lbl-1" "Full Name:" 50 52 100) = none :=
  ⟨claim_C9_renderer_null_for_others.1 (createLabel "lbl-1" "Full Name:" 50 52 100) (by decide),
   claim_C9_renderer_null_for_others.2 (createLabel "lbl-1" "Full Name:" 50 52 100) (by decide)⟩

/-! ### Claim C7: poll scheduling -/

/-- C7: signed-state detection is driven purely by the setTimeout polls
transcribed from loadViewer: the annotations.create listener schedules the
poll exactly twice (100 ms and 300 ms), the annotations.update listener
exactly once (100 ms), loadViewer itself schedules one run at 500 ms
after load, and no other registered listener schedules the poll at all —
in both the basic and the extended variant. -/
theorem claim_C7_poll_scheduling :
    pollDelays (listenerActions loadViewerListeners "annotations.create") = [100, 300]
    ∧ pollDelays (listenerActions loadViewerListeners "annotations.update") = [100]
    ∧ pollDelays (listenerActions loadViewerListenersExt "annotations.create") = [100, 300]
    ∧ pollDelays (listenerActions loadViewerListenersExt "annotations.update") = [100]
    ∧ loadViewerTailPolls = [500]
    ∧ (loadViewerListeners.filter (fun x => !(pollDelays x.2).isEmpty)).map Prod.fst
        = ["annotations.create", "annotations.update"]
    ∧ (loadViewerListenersExt.filter (fun x => !(pollDelays x.2).isEmpty)).map Prod.fst
        = ["annotations.create", "annotations.update"] := by
  decide

/-! ### Claim C3: pointer-down reaching the container -/

/-- A page-0 text-field widget the extended container listener
deactivates: activated strictly true and hasValue not truthy. -/
def IsDeactTarget (x : Annot) : Prop :=
  x.kind = AnnKind.widget ∧ ∃ cd, x.customData = some cd
    ∧ cd.ctype = some "text-field" ∧ cd.activated = some true ∧ truthy cd.hasValue = false

/-- The deactivation update: the bag spread with activated set to false. -/
def deactOf (x : Annot) : Annot :=
  match x.customData with
  | some cd => { x with customData := some { cd with activated := some false } }
  | none => x

theorem deactOf_id (x : Annot) : (deactOf x).id = x.id := by
  unfold deactOf
  cases x.customData <;> rfl

def DeactRel (x y : Annot) : Prop :=
  y = x ∨ (IsDeactTarget x ∧ y = deactOf x)

theorem headD_subset_flatten {ps : List (List Annot)} {x : Annot}
    (h : x ∈ ps.headD []) : x ∈ ps.flatten := by
  cases ps with
  | nil => simp at h
  | cons pg rest => exact mem_flatten_of_mem_head h

theorem deactFold_aux (d : DemoState) (hN : UniqueIds d.inst) :
    ∀ (ts : List ( Annot × CustomData)) (acc : DemoState) (cs : List SdkCall),
      (∀ t ∈ ts, t.1 ∈ allAnns d.inst ∧ t.1.customData = some t.2
        ∧ t.1.kind = AnnKind.widget ∧ t.2.ctype = some "text-field"
        ∧ t.2.activated = some true ∧ truthy t.2.hasValue = false) →
      PagesRel DeactRel d.inst.pages acc.inst.pages →
      PagesRel DeactRel d.inst.pages
          (List.foldl
            (fun acc x =>
              let newCd : CustomData := { x.2 with activated := some false }
              ({ acc.1 with inst := setAnnot acc.1.inst { x.1 with customData := some newCd } },
               acc.2 ++ [SdkCall.update x.1.id newCd]))
            (acc, cs) ts).1.inst.pages
      ∧ (List.foldl
            (fun acc x =>
              let newCd : CustomData := { x.2 with activated := some false }
              ({ acc.1 with inst := setAnnot acc.1.inst { x.1 with customData := some newCd } },
               acc.2 ++ [SdkCall.update x.1.id newCd]))
            (acc, cs) ts).1.activeAnnotationId = acc.activeAnnotationId := by
  intro ts
  induction ts with
  | nil => intro acc cs _ hrel; exact ⟨hrel, rfl⟩
  | cons t ts ih =>
    intro acc cs hts hrel
    rw [List.foldl_cons]
    rcases hts t (List.mem_cons_self t ts) with ⟨hmem, hcd, hkind, hty, hatv, hhv⟩
    have hstep : PagesRel DeactRel d.inst.pages
        (setAnnot acc.inst { t.1 with customData := some { t.2 with activated := some false } }).pages := by
      refine pagesRel_compose hrel
        (setAnnot_pagesRel acc.inst { t.1 with customData := some { t.2 with activated := some false } }) ?_
      intro x y z hx hr hs
      rcases hs with ⟨_, rfl⟩ | ⟨hyid, rfl⟩
      · exact hr
      · have hxid : x.id = t.1.id := by
          rcases hr with rfl | ⟨_, rfl⟩
          · exact hyid
          · rw [deactOf_id] at hyid
            exact hyid
        have hxt : x = t.1 := uniqueIds_inj hN hx hmem hxid
        subst hxt
        refine Or.inr ⟨⟨hkind, t.2, hcd, hty, hatv, hhv⟩, ?_⟩
        unfold deactOf
        rw [hcd]
    exact ih _ _ (fun u hu => hts u (List.mem_cons_of_mem t hu)) hstep

theorem deactivateTextFields_spec (d : DemoState) (hN : UniqueIds d.inst) :
    PagesRel DeactRel d.inst.pages (deactivateTextFields d).1.inst.pages
    ∧ (deactivateTextFields d).1.activeAnnotationId = d.activeAnnotationId := by
  unfold deactivateTextFields
  refine deactFold_aux d hN _ d [] ?_ (pagesRel_refl fun x _ => Or.inl rfl)
  intro t ht
  rcases List.mem_filterMap.mp ht with ⟨a, ha, hfa⟩
  cases hcd : a.customData with
  | none => rw [hcd] at hfa; cases hfa
  | some cd =>
    rw [hcd] at hfa
    dsimp only at hfa
    by_cases hcnd : a.kind = AnnKind.widget ∧ cd.ctype = some "text-field"
        ∧ cd.activated = some true ∧ truthy cd.hasValue = false
    · rw [if_pos hcnd] at hfa
      injection hfa with hfa
      subst hfa
      exact ⟨headD_subset_flatten ha, hcd, hcnd.1, hcnd.2.1, hcnd.2.2.1, hcnd.2.2.2⟩
    · rw [if_neg hcnd] at hfa
      cases hfa

/-- C3 counterexample state: one page-0 text-field widget, activated but
unfilled, and no active annotation. -/
def cdTF1 : CustomData :=
  { ctype := some "text-field", signerName := some "John Doe", signerColor := some "#4A90E2"
  , activated := some true, hasValue := some false }

def annTF1 : Annot :=
  { id := "tf-1", kind := AnnKind.widget, pageIndex := 0
  , boundingBox := { left := 160, top := 50, width := 280, height := 24 }
  , formFieldName := some "tf-1", customData := some cdTF1 }

def demoW3 : DemoState :=
  { inst := { pages := [[annTF1]], formFields := [] }, activeAnnotationId := none }

/-- C3 as stated is false on the extended variant: here no annotation is
active, yet the container pointer-down handler issues an update and
changes the state (it deactivates the opened-but-unfilled text-field
overlay). -/
theorem claim_C3_counterexample :
    demoW3.activeAnnotationId = none
    ∧ (handleClickElsewhereExt false demoW3).2 ≠ []
    ∧ (handleClickElsewhereExt false demoW3).1 ≠ demoW3 := by
  decide

/-! ### Claim C4: the poll marks exactly the overlapped signature fields -/

def markCd (c : CustomData) : CustomData :=
  { c with isSigned := some true, clickedOnce := some false }

def markOf (w : Annot) (cd : CustomData) : Annot :=
  { w with customData := some (markCd cd) }

theorem forall2_compose2 {α : Type} {R S T : α → α → Prop} :
    ∀ {l1 l2 l3 : List α}, List.Forall₂ R l1 l2 → List.Forall₂ S l2 l3 →
      (∀ x y z, x ∈ l1 → y ∈ l2 → R x y → S y z → T x z) → List.Forall₂ T l1 l3 := by
  intro l1 l2 l3 h1 h2 hc
  induction h1 generalizing l3 with
  | nil => cases h2; exact List.Forall₂.nil
  | cons hxy _ ih =>
    cases h2 with
    | cons hyz htail =>
      exact List.Forall₂.cons
        (hc _ _ _ (List.mem_cons_self _ _) (List.mem_cons_self _ _) hxy hyz)
        (ih htail fun x y z hx hy => hc x y z (List.mem_cons_of_mem _ hx) (List.mem_cons_of_mem _ hy))

theorem pagesRel_compose2 {R S T : Annot → Annot → Prop}
    {p1 p2 p3 : List (List Annot)}
    (h1 : PagesRel R p1 p2) (h2 : PagesRel S p2 p3)
    (hc : ∀ x y z, x ∈ p1.flatten → y ∈ p2.flatten → R x y → S y z → T x z) :
    PagesRel T p1 p3 := by
  refine forall2_compose2 h1 h2 ?_
  intro pg1 pg2 pg3 hpg1 hpg2 h12 h23
  refine forall2_compose2 h12 h23 ?_
  intro x y z hx hy
  exact hc x y z (List.mem_flatten.mpr ⟨pg1, hpg1, hx⟩) (List.mem_flatten.mpr ⟨pg2, hpg2, hy⟩)

/-- Replacing, by id, an annotation that does not satisfy the search
predicate with one that does not satisfy it either leaves the page-loop
search untouched. -/
theorem find?_map_replace_pred (pg : List Annot) (b : Annot) (p : Annot → Bool)
    (hrepl : ∀ x ∈ pg, x.id = b.id → p x = false) (hb : p b = false) :
    (pg.map (fun x => if x.id = b.id then b else x)).find? p = pg.find? p := by
  induction pg with
  | nil => rfl
  | cons x pg ih =>
    rw [List.map_cons]
    by_cases hid : x.id = b.id
    · rw [if_pos hid]
      rw [List.find?_cons_of_neg _ (by simp [hb]),
        List.find?_cons_of_neg _ (by simp [hrepl x (List.mem_cons_self x pg) hid])]
      exact ih fun y hy => hrepl y (List.mem_cons_of_mem x hy)
    · rw [if_neg hid]
      cases hp : p x with
      | true =>
        rw [List.find?_cons_of_pos _ (by exact hp), List.find?_cons_of_pos _ (by exact hp)]
      | false =>
        rw [List.find?_cons_of_neg _ (by simp [hp]),
          List.find?_cons_of_neg _ (by simp [hp])]
        exact ih fun y hy => hrepl y (List.mem_cons_of_mem x hy)

theorem findWidgetWithCD_setAnnot_invariant (ps : List (List Annot)) (b : Annot)
    (p : Annot → Bool)
    (hrepl : ∀ x ∈ ps.flatten, x.id = b.id → p x = false) (hb : p b = false) :
    findWidgetWithCD (ps.map (fun pg => pg.map (fun x => if x.id = b.id then b else x))) p
      = findWidgetWithCD ps p := by
  induction ps with
  | nil => rfl
  | cons pg rest ih =>
    rw [List.map_cons, findWidgetWithCD,
      find?_map_replace_pred pg b p (fun x hx => hrepl x (mem_flatten_of_mem_head hx)) hb,
      findWidgetWithCD]
    cases hf : pg.find? p with
    | none =>
      dsimp only
      exact ih fun x hx => hrepl x (mem_flatten_of_mem_rest hx)
    | some w0 =>
      cases hcd : w0.customData with
      | none =>
        simp only [hcd]
        exact ih fun x hx => hrepl x (mem_flatten_of_mem_rest hx)
      | some cd0 => simp only [hcd]

/-- The body of the updateSignedFieldOverlays loop, as a named fold step. -/
def pollStep (ov : String → Nat) : InstanceState × List SdkCall → FormField → InstanceState × List SdkCall :=
  fun acc f =>
    if f.kind = FieldKind.signatureField ∧ 0 < ov f.name then
      let r := markSignedWidget acc.1 f.name
      (r.1, acc.2 ++ r.2)
    else acc

theorem updateSignedFieldOverlays_eq_foldl (ov : String → Nat) (i : InstanceState) :
    updateSignedFieldOverlays ov i = i.formFields.foldl (pollStep ov) (i, []) := rfl

theorem pollStep_pos (ov : String → Nat) (acc : InstanceState × List SdkCall) (f : FormField)
    (hc : f.kind = FieldKind.signatureField ∧ 0 < ov f.name) {w : Annot} {cd : CustomData}
    (hfind : findWidgetWithCD acc.1.pages
        (fun a => a.kind == AnnKind.widget && a.formFieldName == some f.name) = some (w, cd)) :
    (pollStep ov acc f).1 = setAnnot acc.1 (markOf w cd) := by
  unfold pollStep markSignedWidget
  rw [if_pos hc, hfind]
  rfl

theorem pollFold_phase1 (ov : String → Nat) (i : InstanceState) (hN : UniqueIds i)
    (fname : String) (w : Annot) (cd : CustomData) :
    ∀ (fs : List FormField) (j : InstanceState) (cs : List SdkCall),
      InstLe i j →
      findWidgetWithCD j.pages
          (fun a => a.kind == AnnKind.widget && a.formFieldName == some fname)
        = some (w, cd) →
      (∀ g ∈ fs, g.name ≠ fname) →
      InstLe i (List.foldl (pollStep ov) (j, cs) fs).1
      ∧ findWidgetWithCD (List.foldl (pollStep ov) (j, cs) fs).1.pages
          (fun a => a.kind == AnnKind.widget && a.formFieldName == some fname)
        = some (w, cd) := by
  intro fs
  induction fs with
  | nil => intro j cs hij hfind _; exact ⟨hij, hfind⟩
  | cons g fs ih =>
    intro j cs hij hfind hnames
    rw [List.foldl_cons]
    unfold pollStep
    by_cases hc : g.kind = FieldKind.signatureField ∧ 0 < ov g.name
    · rw [if_pos hc]
      have hNj : UniqueIds j := instLe_uniqueIds hij hN
      unfold markSignedWidget
      cases hfg : findWidgetWithCD j.pages
          (fun a => a.kind == AnnKind.widget && a.formFieldName == some g.name) with
      | none =>
        dsimp only
        exact ih j _ hij hfind fun u hu => hnames u (List.mem_cons_of_mem g hu)
      | some wcd =>
        cases wcd with
        | mk wg cdg =>
          dsimp only
          rcases findWidgetWithCD_spec hfg with ⟨hmemg, hpg, hcdg⟩
          simp only [Bool.and_eq_true, beq_iff_eq] at hpg
          have hgne : g.name ≠ fname := hnames g (List.mem_cons_self g fs)
          have hij2 : InstLe i
              (setAnnot j { wg with customData := some { cdg with isSigned := some true, clickedOnce := some false } }) := by
            refine instLe_trans hij (setAnnot_instLe hNj hmemg rfl rfl ?_ ?_)
            · simp [hcdg]
            · intro _
              unfold truthyIsSigned
              simp [truthy]
          have hfind2 : findWidgetWithCD
              (setAnnot j { wg with customData := some { cdg with isSigned := some true, clickedOnce := some false } }).pages
              (fun a => a.kind == AnnKind.widget && a.formFieldName == some fname)
            = some (w, cd) := by
            have hinv := findWidgetWithCD_setAnnot_invariant j.pages
              { wg with customData := some { cdg with isSigned := some true, clickedOnce := some false } }
              (fun a => a.kind == AnnKind.widget && a.formFieldName == some fname)
              (fun x hx hxid => by
                have hxwg : x = wg := uniqueIds_inj hNj hx hmemg hxid
                subst hxwg
                simp [hpg.2, hgne])
              (by simp [hpg.2, hgne])
            exact hinv.trans hfind
          exact ih _ _ hij2 hfind2 fun u hu => hnames u (List.mem_cons_of_mem g hu)
    · rw [if_neg hc]
      exact ih j cs hij hfind fun u hu => hnames u (List.mem_cons_of_mem g hu)

theorem pollFold_phase2 (ov : String → Nat) (i : InstanceState) (hN : UniqueIds i)
    (w : Annot) (cd : CustomData) :
    ∀ (fs : List FormField) (j : InstanceState) (cs : List SdkCall),
      InstLe i j →
      lookupAnn j w.id = some (markOf w cd) →
      lookupAnn (List.foldl (pollStep ov) (j, cs) fs).1 w.id = some (markOf w cd) := by
  intro fs
  induction fs with
  | nil => intro j cs _ hlook; exact hlook
  | cons g fs ih =>
    intro j cs hij hlook
    rw [List.foldl_cons]
    unfold pollStep
    by_cases hc : g.kind = FieldKind.signatureField ∧ 0 < ov g.name
    · rw [if_pos hc]
      have hNj : UniqueIds j := instLe_uniqueIds hij hN
      unfold markSignedWidget
      cases hfg : findWidgetWithCD j.pages
          (fun a => a.kind == AnnKind.widget && a.formFieldName == some g.name) with
      | none =>
        dsimp only
        exact ih j _ hij hlook
      | some wcd =>
        cases wcd with
        | mk wg cdg =>
          dsimp only
          rcases findWidgetWithCD_spec hfg with ⟨hmemg, hpg, hcdg⟩
          have hij2 : InstLe i
              (setAnnot j { wg with customData := some { cdg with isSigned := some true, clickedOnce := some false } }) := by
            refine instLe_trans hij (setAnnot_instLe hNj hmemg rfl rfl ?_ ?_)
            · simp [hcdg]
            · intro _
              unfold truthyIsSigned
              simp [truthy]
          by_cases hid : wg.id = w.id
      -- the widget found for g is the already marked widget: re-marking is idempotent
      -- (the spread keeps all keys and rewrites isSigned / clickedOnce to the same values)
          · have hmark : markOf w cd ∈ allAnns j := (findAnnPages_spec hlook).1
            have hwg : wg = markOf w cd := uniqueIds_inj hNj hmemg hmark hid
            have hcdg2 : cdg = markCd cd := by
              rw [hwg] at hcdg
              unfold markOf at hcdg
              simp only [Option.some.injEq] at hcdg
              exact hcdg.symm
            have hb : ({ wg with customData := some { cdg with isSigned := some true, clickedOnce := some false } } : Annot)
                = markOf w cd := by
              rw [hwg, hcdg2]
              rfl
            rw [hb] at hij2 ⊢
            have hsome : (lookupAnn j (markOf w cd).id).isSome := by
              have hid2 : (markOf w cd).id = w.id := rfl
              rw [hid2, hlook]
              rfl
            have hlk := @lookupAnn_setAnnot_self j (markOf w cd) hsome
            exact ih _ _ hij2 hlk
          · have hne : w.id ≠ ({ wg with customData := some { cdg with isSigned := some true, clickedOnce := some false } } : Annot).id :=
              fun h => hid h.symm
            have hpres := @lookupAnn_setAnnot_ne j
              { wg with customData := some { cdg with isSigned := some true, clickedOnce := some false } } w.id hne
            exact ih _ _ hij2 (hpres.trans hlook)
    · rw [if_neg hc]
      exact ih j cs hij hlook

/-- Frame relation of the poll: an annotation either survives unchanged or
belongs (by formFieldName) to some signature form field with overlapping
annotations. -/
def ChangedRel (ov : String → Nat) (i : InstanceState) (x y : Annot) : Prop :=
  y = x ∨ ∃ f ∈ i.formFields, f.kind = FieldKind.signatureField ∧ 0 < ov f.name
      ∧ x.formFieldName = some f.name

theorem pollFold_changedRel (ov : String → Nat) (i : InstanceState) (hN : UniqueIds i) :
    ∀ (fs : List FormField) (j : InstanceState) (cs : List SdkCall),
      (∀ g ∈ fs, g ∈ i.formFields) → InstLe i j →
      PagesRel (ChangedRel ov i) i.pages j.pages →
      PagesRel (ChangedRel ov i) i.pages (List.foldl (pollStep ov) (j, cs) fs).1.pages
      ∧ InstLe i (List.foldl (pollStep ov) (j, cs) fs).1 := by
  intro fs
  induction fs with
  | nil => intro j cs _ hij hrel; exact ⟨hrel, hij⟩
  | cons g fs ih =>
    intro j cs hsub hij hrel
    rw [List.foldl_cons]
    unfold pollStep
    by_cases hc : g.kind = FieldKind.signatureField ∧ 0 < ov g.name
    · rw [if_pos hc]
      have hNj : UniqueIds j := instLe_uniqueIds hij hN
      unfold markSignedWidget
      cases hfg : findWidgetWithCD j.pages
          (fun a => a.kind == AnnKind.widget && a.formFieldName == some g.name) with
      | none =>
        dsimp only
        exact ih j _ (fun u hu => hsub u (List.mem_cons_of_mem g hu)) hij hrel
      | some wcd =>
        cases wcd with
        | mk wg cdg =>
          dsimp only
          rcases findWidgetWithCD_spec hfg with ⟨hmemg, hpg, hcdg⟩
          simp only [Bool.and_eq_true, beq_iff_eq] at hpg
          have hij2 : InstLe i
              (setAnnot j { wg with customData := some { cdg with isSigned := some true, clickedOnce := some false } }) := by
            refine instLe_trans hij (setAnnot_instLe hNj hmemg rfl rfl ?_ ?_)
            · simp [hcdg]
            · intro _
              unfold truthyIsSigned
              simp [truthy]
          have hrel2 : PagesRel (ChangedRel ov i) i.pages
              (setAnnot j { wg with customData := some { cdg with isSigned := some true, clickedOnce := some false } }).pages := by
            refine pagesRel_compose2 hrel
              (setAnnot_pagesRel j { wg with customData := some { cdg with isSigned := some true, clickedOnce := some false } }) ?_
            intro x y z hx hy hr hs
            rcases hs with ⟨_, rfl⟩ | ⟨hyid, rfl⟩
            · exact hr
            · have hywg : y = wg := uniqueIds_inj hNj hy hmemg hyid
              rcases hr with rfl | hchg
              · subst hywg
                exact Or.inr ⟨g, hsub g (List.mem_cons_self g fs), hc.1, hc.2, hpg.2⟩
              · exact Or.inr hchg
          exact ih _ _ (fun u hu => hsub u (List.mem_cons_of_mem g hu)) hij2 hrel2
    · rw [if_neg hc]
      exact ih j cs (fun u hu => hsub u (List.mem_cons_of_mem g hu)) hij hrel

/-- C4: after a poll run, every signature form field whose overlapping
query is non-empty has its widget's customData updated with isSigned true
and clickedOnce false (the rest of the bag preserved); every annotation
not belonging by formFieldName to such a field is left unchanged; and the
renderer returns null for every annotation whose customData carries a
truthy isSigned, suppressing the overlay. -/
theorem claim_C4_poll_marks_signed (i : InstanceState) (ov : String → Nat)
    (hN : UniqueIds i) (hF : (i.formFields.map FormField.name).Nodup) :
    (∀ f ∈ i.formFields, f.kind = FieldKind.signatureField → 0 < ov f.name →
      ∀ w cd, findWidgetWithCD i.pages
          (fun a => a.kind == AnnKind.widget && a.formFieldName == some f.name) = some (w, cd) →
        lookupAnn (updateSignedFieldOverlays ov i).1 w.id = some (markOf w cd))
    ∧ PagesRel (ChangedRel ov i) i.pages (updateSignedFieldOverlays ov i).1.pages
    ∧ (∀ a : Annot, truthyIsSigned a = true → renderAnnot a = none) := by
  refine ⟨?_, ?_, ?_⟩
  · intro f hf hsig hov w cd hfind
    rcases List.append_of_mem hf with ⟨l1, l2, hsplit⟩
    have hnames : ∀ g ∈ l1, g.name ≠ f.name := by
      intro g hg
      have hF2 := hF
      rw [hsplit, List.map_append, List.map_cons] at hF2
      rcases List.nodup_append.mp hF2 with ⟨_, _, hdisj⟩
      intro hcontra
      exact hdisj (List.mem_map_of_mem FormField.name hg)
        (by rw [hcontra]; exact List.mem_cons_self _ _)
    rw [updateSignedFieldOverlays_eq_foldl, hsplit, List.foldl_append, List.foldl_cons]
    have ph1 := pollFold_phase1 ov i hN f.name w cd l1 i [] (instLe_refl i) hfind hnames
    have hmemw : w ∈ allAnns (List.foldl (pollStep ov) (i, []) l1).1 :=
      (findWidgetWithCD_spec ph1.2).1
    have hx1 : (pollStep ov (List.foldl (pollStep ov) (i, []) l1) f).1
        = setAnnot (List.foldl (pollStep ov) (i, []) l1).1 (markOf w cd) :=
      pollStep_pos ov (List.foldl (pollStep ov) (i, []) l1) f ⟨hsig, hov⟩ ph1.2
    have hij3 : InstLe i (setAnnot (List.foldl (pollStep ov) (i, []) l1).1 (markOf w cd)) := by
      refine instLe_trans ph1.1 (setAnnot_instLe (instLe_uniqueIds ph1.1 hN) hmemw rfl rfl ?_ ?_)
      · have := (findWidgetWithCD_spec ph1.2).2.2
        simp [this, markOf, markCd]
      · intro _
        unfold truthyIsSigned markOf markCd
        simp [truthy]
    have hsome : (lookupAnn (List.foldl (pollStep ov) (i, []) l1).1 (markOf w cd).id).isSome := by
      have hid2 : (markOf w cd).id = w.id := rfl
      rw [hid2]
      exact findAnnPages_isSome_of_mem hmemw
    have hlk := @lookupAnn_setAnnot_self (List.foldl (pollStep ov) (i, []) l1).1 (markOf w cd) hsome
    exact pollFold_phase2 ov i hN w cd l2
      (pollStep ov (List.foldl (pollStep ov) (i, []) l1) f).1
      (pollStep ov (List.foldl (pollStep ov) (i, []) l1) f).2
      (by rw [hx1]; exact hij3) (by rw [hx1]; exact hlk)
  · rw [updateSignedFieldOverlays_eq_foldl]
    exact (pollFold_changedRel ov i hN i.formFields i [] (fun g hg => hg) (instLe_refl i)
      (pagesRel_refl fun x _ => Or.inl rfl)).1
  · intro a htr
    unfold truthyIsSigned at htr
    unfold renderAnnot
    by_cases hk : a.kind = AnnKind.widget
    · rw [if_neg (by rw [hk]; exact fun hc => hc rfl)]
      cases hcd : a.customData with
      | none => rfl
      | some cd =>
        rw [hcd] at htr
        dsimp only
        by_cases hty : cd.ctype = some "signature"
        · rw [if_neg (by exact fun hc => hc hty), if_pos htr]
        · rw [if_pos (by exact hty)]
    · rw [if_pos (by exact fun hc => hk hc)]

theorem claim_C4_witness :
    UniqueIds demoW.inst ∧ (demoW.inst.formFields.map FormField.name).Nodup
    ∧ ((∀ f ∈ demoW.inst.formFields, f.kind = FieldKind.signatureField → 0 < (fun _ : String => 1) f.name →
        ∀ w cd, findWidgetWithCD demoW.inst.pages
            (fun a => a.kind == AnnKind.widget && a.formFieldName == some f.name) = some (w, cd) →
          lookupAnn (updateSignedFieldOverlays (fun _ => 1) demoW.inst).1 w.id = some (markOf w cd))
      ∧ PagesRel (ChangedRel (fun _ => 1) demoW.inst) demoW.inst.pages
          (updateSignedFieldOverlays (fun _ => 1) demoW.inst).1.pages
      ∧ (∀ a : Annot, truthyIsSigned a = true → renderAnnot a = none)) :=
  ⟨by decide, by decide, claim_C4_poll_marks_signed demoW.inst (fun _ => 1) (by decide) (by decide)⟩

/-! ### Claim C10: handleLoadFields resets fields and labels -/

theorem deleteFields_foldl_formFields :
    ∀ (fs : List FormField) (s : InstanceState),
      (List.foldl deleteFormField s fs).formFields
        = s.formFields.filter (fun x => fs.all (fun f => x.name != f.name)) := by
  intro fs
  induction fs with
  | nil =>
    intro s
    simp
  | cons f fs ih =>
    intro s
    rw [List.foldl_cons, ih]
    unfold deleteFormField
    dsimp only
    rw [List.filter_filter]
    refine List.filter_congr ?_
    intro x _
    rw [List.all_cons, Bool.and_comm]

theorem clearFields_formFields (s : InstanceState) :
    (List.foldl deleteFormField s s.formFields).formFields = [] := by
  rw [deleteFields_foldl_formFields]
  refine List.filter_eq_nil_iff.mpr ?_
  intro x hx
  intro hall
  have := List.all_eq_true.mp hall x hx
  simp at this

theorem deleteFields_foldl_pages_ne :
    ∀ (fs : List FormField) (s : InstanceState), s.pages ≠ [] →
      (List.foldl deleteFormField s fs).pages ≠ [] := by
  intro fs
  induction fs with
  | nil => intro s h; exact h
  | cons f fs ih =>
    intro s h
    rw [List.foldl_cons]
    refine ih _ ?_
    unfold deleteFormField
    dsimp only
    simpa using h

theorem deleteAnnots_foldl_formFields :
    ∀ (ls : List Annot) (s : InstanceState),
      (List.foldl deleteAnnot s ls).formFields = s.formFields := by
  intro ls
  induction ls with
  | nil => intro s; rfl
  | cons a ls ih =>
    intro s
    rw [List.foldl_cons, ih]
    rfl

theorem deleteAnnots_foldl_pages :
    ∀ (ls : List Annot) (s : InstanceState),
      (List.foldl deleteAnnot s ls).pages
        = s.pages.map (fun pg => pg.filter (fun b => ls.all (fun a => b.id != a.id))) := by
  intro ls
  induction ls with
  | nil =>
    intro s
    simp
  | cons a ls ih =>
    intro s
    rw [List.foldl_cons, ih]
    unfold deleteAnnot
    dsimp only
    rw [List.map_map]
    refine List.map_congr_left ?_
    intro pg _
    dsimp only [Function.comp]
    rw [List.filter_filter]
    refine List.filter_congr ?_
    intro x _
    rw [List.all_cons, Bool.and_comm]

theorem getAnnots_zero (i : InstanceState) : getAnnots i 0 = i.pages.headD [] := by
  unfold getAnnots
  cases i.pages <;> rfl

theorem headD_map_filter (p : Annot → Bool) (ps : List (List Annot)) :
    (ps.map (fun pg => pg.filter p)).headD [] = (ps.headD []).filter p := by
  cases ps <;> rfl

/-- The annotation payload of a create batch. -/
def itemAnn : CreateItem → Option Annot
  | CreateItem.ann a => some a
  | CreateItem.field _ => none

/-- The form-field payload of a create batch. -/
def itemField : CreateItem → Option FormField
  | CreateItem.ann _ => none
  | CreateItem.field f => some f

theorem createItems_spec :
    ∀ (items : List CreateItem) (s : InstanceState),
      s.pages ≠ [] → (∀ a, CreateItem.ann a ∈ items → a.pageIndex = 0) →
      getAnnots (createItems s items) 0 = getAnnots s 0 ++ items.filterMap itemAnn
      ∧ (createItems s items).pages ≠ []
      ∧ (createItems s items).formFields = s.formFields ++ items.filterMap itemField := by
  intro items
  induction items with
  | nil =>
    intro s hps _
    exact ⟨by simp [createItems], hps, by simp [createItems]⟩
  | cons it items ih =>
    intro s hps hall
    cases it with
    | ann a =>
      rcases List.exists_cons_of_ne_nil hps with ⟨pg, rest, hpg⟩
      have ha0 : a.pageIndex = 0 := hall a (List.mem_cons_self _ _)
      have hstep : (createAnnInst s a).pages = (pg ++ [a]) :: rest := by
        unfold createAnnInst addToPage
        rw [hpg, ha0]
      have hstep0 : getAnnots (createAnnInst s a) 0 = getAnnots s 0 ++ [a] := by
        rw [getAnnots_zero, getAnnots_zero, hstep, hpg]
        rfl
      have hne : (createAnnInst s a).pages ≠ [] := by
        rw [hstep]
        exact List.cons_ne_nil _ _
      have hff : (createAnnInst s a).formFields = s.formFields := rfl
      unfold createItems
      rw [List.foldl_cons]
      dsimp only
      rcases ih (createAnnInst s a) hne
          (fun b hb => hall b (List.mem_cons_of_mem _ hb)) with ⟨h1, h2, h3⟩
      unfold createItems at h1 h2 h3
      refine ⟨?_, h2, ?_⟩
      · rw [h1, hstep0]
        simp [itemAnn]
      · rw [h3, hff]
        simp [itemField]
    | field f =>
      unfold createItems
      rw [List.foldl_cons]
      dsimp only
      rcases ih { s with formFields := s.formFields ++ [f] } (by simpa using hps)
          (fun b hb => hall b (List.mem_cons_of_mem _ hb)) with ⟨h1, h2, h3⟩
      unfold createItems at h1 h2 h3
      refine ⟨?_, h2, ?_⟩
      · rw [h1]
        simp [itemAnn, getAnnots]
      · rw [h3]
        simp [itemField]

theorem sigFold_spec :
    ∀ (zs : List (String × (String × String × Nat × Nat))) (s : InstanceState),
      s.pages ≠ [] →
      getAnnots (List.foldl
          (fun s x => createItems s
            [CreateItem.ann (mkSigWidget x.1 x.2), CreateItem.field (mkSigField x.1)])
          s zs) 0
        = getAnnots s 0 ++ zs.map (fun x => mkSigWidget x.1 x.2)
      ∧ (List.foldl
          (fun s x => createItems s
            [CreateItem.ann (mkSigWidget x.1 x.2), CreateItem.field (mkSigField x.1)])
          s zs).pages ≠ []
      ∧ (List.foldl
          (fun s x => createItems s
            [CreateItem.ann (mkSigWidget x.1 x.2), CreateItem.field (mkSigField x.1)])
          s zs).formFields = s.formFields ++ zs.map (fun x => mkSigField x.1) := by
  intro zs
  induction zs with
  | nil =>
    intro s hps
    exact ⟨by simp, hps, by simp⟩
  | cons z zs ih =>
    intro s hps
    rw [List.foldl_cons]
    rcases createItems_spec
        [CreateItem.ann (mkSigWidget z.1 z.2), CreateItem.field (mkSigField z.1)] s hps
        (by
          intro a ha
          rcases List.mem_cons.mp ha with h | h
          · injection h with h; rw [h]; rfl
          · rcases List.mem_cons.mp h with h2 | h2
            · cases h2
            · simp at h2) with ⟨h1, h2, h3⟩
    rcases ih _ h2 with ⟨g1, g2, g3⟩
    refine ⟨?_, g2, ?_⟩
    · rw [g1, h1]
      simp [itemAnn]
    · rw [g3, h3]
      simp [itemField]

/-- The first create batch of handleLoadFields (text fields). -/
def loadBatch1 (ids : LoadIds) : List CreateItem :=
  [ CreateItem.ann (createLabel ids.lblFullNameId "Full Name:" 50 52 100)
  , CreateItem.ann (fullNameWidgetOf ids)
  , CreateItem.field (fullNameFieldOf ids)
  , CreateItem.ann (createLabel ids.lblDateId "Date:" 50 102 100)
  , CreateItem.ann (dateWidgetOf ids)
  , CreateItem.field (dateFieldOf ids) ]

/-- The second create batch of handleLoadFields (checkboxes). -/
def loadBatch2 (ids : LoadIds) : List CreateItem :=
  [ CreateItem.ann (agreeWidgetOf ids)
  , CreateItem.field (agreeFieldOf ids)
  , CreateItem.ann (createLabel ids.lblAgreeId "Agree to terms" 78 150 130)
  , CreateItem.ann (updatesWidgetOf ids)
  , CreateItem.field (updatesFieldOf ids)
  , CreateItem.ann (createLabel ids.lblUpdatesId "Receive updates" 248 150 130) ]

theorem isFormLabel_createLabel (lid t : String) (x y w h : Nat) :
    isFormLabelAnn (createLabel lid t x y w h) = true := rfl

theorem isFormLabel_fullNameWidget (ids : LoadIds) :
    isFormLabelAnn (fullNameWidgetOf ids) = false := rfl

theorem isFormLabel_dateWidget (ids : LoadIds) :
    isFormLabelAnn (dateWidgetOf ids) = false := rfl

theorem isFormLabel_agreeWidget (ids : LoadIds) :
    isFormLabelAnn (agreeWidgetOf ids) = false := rfl

theorem isFormLabel_updatesWidget (ids : LoadIds) :
    isFormLabelAnn (updatesWidgetOf ids) = false := rfl

theorem isFormLabel_mkSigWidget (fid : String) (spec : String × String × Nat × Nat) :
    isFormLabelAnn (mkSigWidget fid spec) = false := rfl

/-- C10: every successful run of handleLoadFields leaves exactly the fresh
form fields and exactly the fresh page-0 labels: no pre-existing form
field survives (all are deleted first), no pre-existing page-0 form-label
annotation survives, and the resulting field/label population is a fixed
function of the fresh ids alone, so repeated runs never accumulate
duplicates. -/
theorem claim_C10_load_fields_resets (i : InstanceState) (ids : LoadIds)
    (hpages : i.pages ≠ []) :
    (handleLoadFields ids i).formFields = newFormFields ids
    ∧ (getAnnots (handleLoadFields ids i) 0).filter isFormLabelAnn = newLabels ids
    ∧ ((∀ f ∈ i.formFields, f.name ∉ newFieldNames ids) →
        ∀ f ∈ i.formFields, f ∉ (handleLoadFields ids i).formFields)
    ∧ ((∀ a ∈ getAnnots i 0, a.id ∉ newLabelIds ids) →
        ∀ a ∈ getAnnots i 0, isFormLabelAnn a = true →
          a ∉ getAnnots (handleLoadFields ids i) 0) := by
  have h1ne : (List.foldl deleteFormField i i.formFields).pages ≠ [] :=
    deleteFields_foldl_pages_ne i.formFields i hpages
  have h2ne : (List.foldl deleteAnnot (List.foldl deleteFormField i i.formFields)
      ((getAnnots (List.foldl deleteFormField i i.formFields) 0).filter isFormLabelAnn)).pages ≠ [] := by
    rw [deleteAnnots_foldl_pages]
    intro hcontra
    rw [List.map_eq_nil_iff] at hcontra
    exact h1ne hcontra
  have h2ff : (List.foldl deleteAnnot (List.foldl deleteFormField i i.formFields)
      ((getAnnots (List.foldl deleteFormField i i.formFields) 0).filter isFormLabelAnn)).formFields = [] := by
    rw [deleteAnnots_foldl_formFields]
    exact clearFields_formFields i
  have h2labels : ∀ x ∈ getAnnots (List.foldl deleteAnnot (List.foldl deleteFormField i i.formFields)
      ((getAnnots (List.foldl deleteFormField i i.formFields) 0).filter isFormLabelAnn)) 0,
      isFormLabelAnn x = false := by
    intro x hx
    rw [getAnnots_zero, deleteAnnots_foldl_pages, headD_map_filter, ← getAnnots_zero] at hx
    rcases List.mem_filter.mp hx with ⟨hx1, hall⟩
    by_contra hb
    rw [Bool.not_eq_false] at hb
    have hxlab : x ∈ (getAnnots (List.foldl deleteFormField i i.formFields) 0).filter isFormLabelAnn :=
      List.mem_filter.mpr ⟨hx1, hb⟩
    have := List.all_eq_true.mp hall x hxlab
    simp at this
  have cond1 : ∀ a, CreateItem.ann a ∈ loadBatch1 ids → a.pageIndex = 0 := by
    intro a ha
    unfold loadBatch1 at ha
    rcases List.mem_cons.mp ha with h | ha
    · injection h with h; subst h; rfl
    rcases List.mem_cons.mp ha with h | ha
    · injection h with h; subst h; rfl
    rcases List.mem_cons.mp ha with h | ha
    · injection h
    rcases List.mem_cons.mp ha with h | ha
    · injection h with h; subst h; rfl
    rcases List.mem_cons.mp ha with h | ha
    · injection h with h; subst h; rfl
    rcases List.mem_cons.mp ha with h | ha
    · injection h
    · simp at ha
  have cond2 : ∀ a, CreateItem.ann a ∈ loadBatch2 ids → a.pageIndex = 0 := by
    intro a ha
    unfold loadBatch2 at ha
    rcases List.mem_cons.mp ha with h | ha
    · injection h with h; subst h; rfl
    rcases List.mem_cons.mp ha with h | ha
    · injection h
    rcases List.mem_cons.mp ha with h | ha
    · injection h with h; subst h; rfl
    rcases List.mem_cons.mp ha with h | ha
    · injection h with h; subst h; rfl
    rcases List.mem_cons.mp ha with h | ha
    · injection h
    rcases List.mem_cons.mp ha with h | ha
    · injection h with h; subst h; rfl
    · simp at ha
  rcases createItems_spec (loadBatch1 ids) _ h2ne cond1 with ⟨hA1, hA1ne, hA1ff⟩
  rcases createItems_spec (loadBatch2 ids) _ hA1ne cond2 with ⟨hA2, hA2ne, hA2ff⟩
  rcases sigFold_spec (List.zip ids.sigIds sigFieldSpecs) _ hA2ne with ⟨hS, hSne, hSff⟩
  have hunfold : handleLoadFields ids i
      = List.foldl
          (fun s x => createItems s
            [CreateItem.ann (mkSigWidget x.1 x.2), CreateItem.field (mkSigField x.1)])
          (createItems (createItems
            (List.foldl deleteAnnot (List.foldl deleteFormField i i.formFields)
              ((getAnnots (List.foldl deleteFormField i i.formFields) 0).filter isFormLabelAnn))
            (loadBatch1 ids)) (loadBatch2 ids))
          (List.zip ids.sigIds sigFieldSpecs) := rfl
  have hfields : (handleLoadFields ids i).formFields = newFormFields ids := by
    rw [hunfold, hSff, hA2ff, hA1ff, h2ff]
    rfl
  have hpage0 : getAnnots (handleLoadFields ids i) 0
      = getAnnots (List.foldl deleteAnnot (List.foldl deleteFormField i i.formFields)
          ((getAnnots (List.foldl deleteFormField i i.formFields) 0).filter isFormLabelAnn)) 0
        ++ (loadBatch1 ids).filterMap itemAnn
        ++ (loadBatch2 ids).filterMap itemAnn
        ++ (List.zip ids.sigIds sigFieldSpecs).map (fun x => mkSigWidget x.1 x.2) := by
    rw [hunfold, hS, hA2, hA1]
  have hsigfilter : ∀ zs : List (String × (String × String × Nat × Nat)),
      (zs.map (fun x => mkSigWidget x.1 x.2)).filter isFormLabelAnn = [] := by
    intro zs
    induction zs with
    | nil => rfl
    | cons z zs ih =>
      rw [List.map_cons, List.filter_cons_of_neg (by simp [isFormLabel_mkSigWidget]), ih]
  have hi2filter : (getAnnots (List.foldl deleteAnnot (List.foldl deleteFormField i i.formFields)
      ((getAnnots (List.foldl deleteFormField i i.formFields) 0).filter isFormLabelAnn)) 0).filter
        isFormLabelAnn = [] := by
    refine List.filter_eq_nil_iff.mpr ?_
    intro x hx
    rw [h2labels x hx]
    simp
  have hlabels : (getAnnots (handleLoadFields ids i) 0).filter isFormLabelAnn = newLabels ids := by
    rw [hpage0, List.filter_append, List.filter_append, List.filter_append,
      hi2filter, hsigfilter]
    rfl
  refine ⟨hfields, hlabels, ?_, ?_⟩
  · intro hfresh f hf hcontra
    rw [hfields] at hcontra
    have hname : f.name ∈ newFieldNames ids := by
      unfold newFormFields at hcontra
      rcases List.mem_append.mp hcontra with h | h
      · rcases List.mem_cons.mp h with h | h
        · rw [h]; exact List.mem_cons_self _ _
        rcases List.mem_cons.mp h with h | h
        · rw [h]; exact List.mem_cons_of_mem _ (List.mem_cons_self _ _)
        rcases List.mem_cons.mp h with h | h
        · rw [h]
          exact List.mem_cons_of_mem _ (List.mem_cons_of_mem _ (List.mem_cons_self _ _))
        rcases List.mem_cons.mp h with h | h
        · rw [h]
          exact List.mem_cons_of_mem _ (List.mem_cons_of_mem _ (List.mem_cons_of_mem _ (List.mem_cons_self _ _)))
        · simp at h
      · rcases List.mem_map.mp h with ⟨z, hz, hzf⟩
        obtain ⟨zid, zspec⟩ := z
        have hzid : zid ∈ ids.sigIds := (List.of_mem_zip hz).1
        rw [← hzf]
        unfold newFieldNames
        exact List.mem_append.mpr (Or.inr hzid)
    exact hfresh f hf hname
  · intro hfreshL a ha hlab hcontra
    rw [hpage0] at hcontra
    rcases List.mem_append.mp hcontra with hrest | hsig
    swap
    · rcases List.mem_map.mp hsig with ⟨z, _, hza⟩
      rw [← hza, isFormLabel_mkSigWidget] at hlab
      cases hlab
    rcases List.mem_append.mp hrest with hrest | hb2
    swap
    · unfold loadBatch2 itemAnn at hb2
      simp only [List.filterMap] at hb2
      rcases List.mem_cons.mp hb2 with h | hb2
      · rw [h, isFormLabel_agreeWidget] at hlab; cases hlab
      rcases List.mem_cons.mp hb2 with h | hb2
      · refine hfreshL a ha ?_
        rw [h]
        unfold newLabelIds
        exact List.mem_cons_of_mem _ (List.mem_cons_of_mem _ (List.mem_cons_self _ _))
      rcases List.mem_cons.mp hb2 with h | hb2
      · rw [h, isFormLabel_updatesWidget] at hlab; cases hlab
      rcases List.mem_cons.mp hb2 with h | hb2
      · refine hfreshL a ha ?_
        rw [h]
        unfold newLabelIds
        exact List.mem_cons_of_mem _ (List.mem_cons_of_mem _ (List.mem_cons_of_mem _ (List.mem_cons_self _ _)))
      · simp at hb2
    rcases List.mem_append.mp hrest with hi2 | hb1
    · have := h2labels a hi2
      rw [hlab] at this
      cases this
    · unfold loadBatch1 itemAnn at hb1
      simp only [List.filterMap] at hb1
      rcases List.mem_cons.mp hb1 with h | hb1
      · refine hfreshL a ha ?_
        rw [h]
        unfold newLabelIds
        exact List.mem_cons_self _ _
      rcases List.mem_cons.mp hb1 with h | hb1
      · rw [h, isFormLabel_fullNameWidget] at hlab; cases hlab
      rcases List.mem_cons.mp hb1 with h | hb1
      · refine hfreshL a ha ?_
        rw [h]
        unfold newLabelIds
        exact List.mem_cons_of_mem _ (List.mem_cons_self _ _)
      rcases List.mem_cons.mp hb1 with h | hb1
      · rw [h, isFormLabel_dateWidget] at hlab; cases hlab
      · simp at hb1

/-- Witness state for handleLoadFields: one pre-existing signature field
with its widget, plus one pre-existing form label on page 0. -/
def oldField : FormField :=
  { name := "old-1", kind := FieldKind.signatureField, annotationIds := ["old-1"] }

def oldWidget : Annot :=
  { id := "old-1", kind := AnnKind.widget, pageIndex := 0
  , boundingBox := { left := 96, top := 300, width := 150, height := 50 }
  , formFieldName := some "old-1", customData := some { ctype := some "signature" } }

def oldLabel : Annot := createLabel "old-lbl" "Old:" 10 10 50

def instOld : InstanceState :=
  { pages := [[oldLabel, oldWidget]], formFields := [oldField] }

def loadIdsW : LoadIds :=
  { fullNameId := "fn-1", dateId := "dt-1", agreeId := "ag-1", updatesId := "up-1"
  , lblFullNameId := "lbl-fn", lblDateId := "lbl-dt", lblAgreeId := "lbl-ag", lblUpdatesId := "lbl-up"
  , sigIds := ["s-1", "s-2", "s-3", "s-4"] }

theorem claim_C10_witness :
    (handleLoadFields loadIdsW instOld).formFields = newFormFields loadIdsW
    ∧ (getAnnots (handleLoadFields loadIdsW instOld) 0).filter isFormLabelAnn = newLabels loadIdsW
    ∧ ((∀ f ∈ instOld.formFields, f.name ∉ newFieldNames loadIdsW) →
        ∀ f ∈ instOld.formFields, f ∉ (handleLoadFields loadIdsW instOld).formFields)
    ∧ ((∀ a ∈ getAnnots instOld 0, a.id ∉ newLabelIds loadIdsW) →
        ∀ a ∈ getAnnots instOld 0, isFormLabelAnn a = true →
          a ∉ getAnnots (handleLoadFields loadIdsW instOld) 0) :=
  claim_C10_load_fields_resets instOld loadIdsW (by decide)

/-! ### Claim C3, strengthened: progress and the active-annotation branch
of the extended container listener -/

/-- The snapshot of page-0 text-field widgets the extended container
listener deactivates (the loop body's condition, as a filter over
getAnnotations(0)). -/
def deactTargets (d : DemoState) : List ( Annot × CustomData) :=
  (d.inst.pages.headD []).filterMap (fun a =>
    match a.customData with
    | some cd =>
      if a.kind = AnnKind.widget ∧ cd.ctype = some "text-field"
          ∧ cd.activated = some true ∧ truthy cd.hasValue = false then
        some (a, cd)
      else none
    | none => none)

theorem deactivateTextFields_as_fold (d : DemoState) :
    deactivateTextFields d
      = List.foldl
          (fun acc x =>
            let newCd : CustomData := { x.2 with activated := some false }
            ({ acc.1 with inst := setAnnot acc.1.inst { x.1 with customData := some newCd } },
             acc.2 ++ [SdkCall.update x.1.id newCd]))
          (d, []) (deactTargets d) := rfl

theorem deactTargets_facts (d : DemoState) :
    ∀ t ∈ deactTargets d, t.1 ∈ allAnns d.inst ∧ t.1.customData = some t.2 := by
  intro t ht
  rcases List.mem_filterMap.mp ht with ⟨a, ha, hfa⟩
  cases hcd : a.customData with
  | none => rw [hcd] at hfa; cases hfa
  | some cd =>
    rw [hcd] at hfa
    dsimp only at hfa
    by_cases hcnd : a.kind = AnnKind.widget ∧ cd.ctype = some "text-field"
        ∧ cd.activated = some true ∧ truthy cd.hasValue = false
    · rw [if_pos hcnd] at hfa
      injection hfa with hfa
      subst hfa
      exact ⟨headD_subset_flatten ha, hcd⟩
    · rw [if_neg hcnd] at hfa
      cases hfa

theorem mem_deactTargets {d : DemoState} {x : Annot} {cd : CustomData}
    (hx : x ∈ getAnnots d.inst 0) (hk : x.kind = AnnKind.widget)
    (hcd : x.customData = some cd) (hty : cd.ctype = some "text-field")
    (hatv : cd.activated = some true) (hhv : truthy cd.hasValue = false) :
    (x, cd) ∈ deactTargets d := by
  unfold deactTargets
  refine List.mem_filterMap.mpr ⟨x, ?_, ?_⟩
  · rw [getAnnots_zero] at hx
    exact hx
  · rw [hcd]
    dsimp only
    rw [if_pos ⟨hk, hty, hatv, hhv⟩]

theorem lookupAnn_self_of_uniqueIds {i : InstanceState} {x : Annot}
    (hN : UniqueIds i) (hx : x ∈ allAnns i) : lookupAnn i x.id = some x := by
  have hs := findAnnPages_isSome_of_mem hx
  rcases Option.isSome_iff_exists.mp hs with ⟨y, hy⟩
  rcases findAnnPages_spec hy with ⟨hym, hyid⟩
  have hyx : y = x := uniqueIds_inj hN hym hx hyid
  rw [hyx] at hy
  exact hy

/-- The extended container listener's deactivation loop issues exactly one
update per qualifying widget, in snapshot order. -/
theorem deactFold_trace :
    ∀ (ts : List ( Annot × CustomData)) (acc : DemoState) (cs : List SdkCall),
      (List.foldl
        (fun acc x =>
          let newCd : CustomData := { x.2 with activated := some false }
          ({ acc.1 with inst := setAnnot acc.1.inst { x.1 with customData := some newCd } },
           acc.2 ++ [SdkCall.update x.1.id newCd]))
        (acc, cs) ts).2
      = cs ++ ts.map (fun t => SdkCall.update t.1.id { t.2 with activated := some false }) := by
  intro ts
  induction ts with
  | nil => intro acc cs; simp
  | cons t ts ih =>
    intro acc cs
    rw [List.foldl_cons, List.map_cons]
    rw [ih]
    simp

theorem deactFold_active :
    ∀ (ts : List ( Annot × CustomData)) (acc : DemoState) (cs : List SdkCall),
      (List.foldl
        (fun acc x =>
          let newCd : CustomData := { x.2 with activated := some false }
          ({ acc.1 with inst := setAnnot acc.1.inst { x.1 with customData := some newCd } },
           acc.2 ++ [SdkCall.update x.1.id newCd]))
        (acc, cs) ts).1.activeAnnotationId = acc.activeAnnotationId := by
  intro ts
  induction ts with
  | nil => intro acc cs; rfl
  | cons t ts ih =>
    intro acc cs
    rw [List.foldl_cons]
    exact ih _ _

theorem deactivateTextFields_active (d : DemoState) :
    (deactivateTextFields d).1.activeAnnotationId = d.activeAnnotationId := by
  rw [deactivateTextFields_as_fold]
  exact deactFold_active (deactTargets d) d []

/-- Once a qualifying widget has been deactivated, the remaining loop
iterations keep it deactivated (re-deactivation is idempotent). -/
theorem deactFold_maintain (d : DemoState) (hN : UniqueIds d.inst)
    (x : Annot) (cd : CustomData)
    (hxmem : x ∈ allAnns d.inst) (hxcd : x.customData = some cd) :
    ∀ (ts : List ( Annot × CustomData)) (acc : DemoState) (cs : List SdkCall),
      (∀ t ∈ ts, t.1 ∈ allAnns d.inst ∧ t.1.customData = some t.2) →
      lookupAnn acc.inst x.id = some (deactOf x) →
      lookupAnn (List.foldl
        (fun acc x =>
          let newCd : CustomData := { x.2 with activated := some false }
          ({ acc.1 with inst := setAnnot acc.1.inst { x.1 with customData := some newCd } },
           acc.2 ++ [SdkCall.update x.1.id newCd]))
        (acc, cs) ts).1.inst x.id = some (deactOf x) := by
  intro ts
  induction ts with
  | nil => intro acc cs _ hlook; exact hlook
  | cons t ts ih =>
    intro acc cs hts hlook
    rw [List.foldl_cons]
    obtain ⟨t1, t2⟩ := t
    rcases hts (t1, t2) (List.mem_cons_self _ _) with ⟨ht1m, ht1cd⟩
    by_cases hid : t1.id = x.id
    · have ht1x : t1 = x := uniqueIds_inj hN ht1m hxmem hid
      subst ht1x
      have ht2 : t2 = cd := by
        rw [hxcd] at ht1cd
        injection ht1cd with h
        exact h.symm
      rw [ht2]
      have hdx : deactOf t1 = { t1 with customData := some { cd with activated := some false } } := by
        unfold deactOf
        rw [hxcd]
      have hsome : (lookupAnn acc.inst
          ({ t1 with customData := some { cd with activated := some false } } : Annot).id).isSome := by
        rw [show ({ t1 with customData := some { cd with activated := some false } } : Annot).id = t1.id from rfl,
          hlook]
        rfl
      have hlk := @lookupAnn_setAnnot_self acc.inst
        { t1 with customData := some { cd with activated := some false } } hsome
      refine ih _ _ (fun u hu => hts u (List.mem_cons_of_mem _ hu)) ?_
      rw [hdx]
      exact hlk
    · have hne : x.id ≠ ({ t1 with customData := some { t2 with activated := some false } } : Annot).id :=
        fun h => hid h.symm
      have hpres := @lookupAnn_setAnnot_ne acc.inst
        { t1 with customData := some { t2 with activated := some false } } x.id hne
      exact ih _ _ (fun u hu => hts u (List.mem_cons_of_mem _ hu)) (hpres.trans hlook)

/-- Progress of the deactivation loop: every qualifying widget in the
snapshot ends up stored with activated set to false. -/
theorem deactFold_progress (d : DemoState) (hN : UniqueIds d.inst)
    (x : Annot) (cd : CustomData)
    (hxmem : x ∈ allAnns d.inst) (hxcd : x.customData = some cd) :
    ∀ (ts : List ( Annot × CustomData)) (acc : DemoState) (cs : List SdkCall),
      (∀ t ∈ ts, t.1 ∈ allAnns d.inst ∧ t.1.customData = some t.2) →
      (x, cd) ∈ ts →
      (lookupAnn acc.inst x.id = some x ∨ lookupAnn acc.inst x.id = some (deactOf x)) →
      lookupAnn (List.foldl
        (fun acc x =>
          let newCd : CustomData := { x.2 with activated := some false }
          ({ acc.1 with inst := setAnnot acc.1.inst { x.1 with customData := some newCd } },
           acc.2 ++ [SdkCall.update x.1.id newCd]))
        (acc, cs) ts).1.inst x.id = some (deactOf x) := by
  intro ts
  induction ts with
  | nil => intro acc cs _ hmem _; simp at hmem
  | cons t ts ih =>
    intro acc cs hts hmem hinv
    rw [List.foldl_cons]
    obtain ⟨t1, t2⟩ := t
    rcases hts (t1, t2) (List.mem_cons_self _ _) with ⟨ht1m, ht1cd⟩
    by_cases hid : t1.id = x.id
    · have ht1x : t1 = x := uniqueIds_inj hN ht1m hxmem hid
      subst ht1x
      have ht2 : t2 = cd := by
        rw [hxcd] at ht1cd
        injection ht1cd with h
        exact h.symm
      rw [ht2]
      have hdx : deactOf t1 = { t1 with customData := some { cd with activated := some false } } := by
        unfold deactOf
        rw [hxcd]
      have hsome : (lookupAnn acc.inst
          ({ t1 with customData := some { cd with activated := some false } } : Annot).id).isSome := by
        rcases hinv with h | h <;>
          (rw [show ({ t1 with customData := some { cd with activated := some false } } : Annot).id = t1.id from rfl,
            h]; rfl)
      have hlk := @lookupAnn_setAnnot_self acc.inst
        { t1 with customData := some { cd with activated := some false } } hsome
      refine deactFold_maintain d hN t1 cd hxmem hxcd ts _ _
        (fun u hu => hts u (List.mem_cons_of_mem _ hu)) ?_
      rw [hdx]
      exact hlk
    · have hne : x.id ≠ ({ t1 with customData := some { t2 with activated := some false } } : Annot).id :=
        fun h => hid h.symm
      have hpres := @lookupAnn_setAnnot_ne acc.inst
        { t1 with customData := some { t2 with activated := some false } } x.id hne
      have hmem2 : (x, cd) ∈ ts := by
        rcases List.mem_cons.mp hmem with h | h
        · injection h with h1 _
          exact absurd (congrArg Annot.id h1.symm) hid
        · exact h
      refine ih _ _ (fun u hu => hts u (List.mem_cons_of_mem _ hu)) hmem2 ?_
      rcases hinv with h | h
      · exact Or.inl (hpres.trans h)
      · exact Or.inr (hpres.trans h)

/-- C3 (amended): in the basic variant the claim holds exactly as stated:
with no active annotation the container pointer-down does nothing; with an
active annotation it nulls the ref and issues exactly one update, the old
bag spread with clickedOnce set to false (isSigned and all other keys
preserved), to the first widget found with the active id (no update when
no such widget with customData exists).  In the extended variant the ref
is likewise nulled and, when an annotation is active, the found widget
receives the same clickedOnce-false update; additionally, unless the
pointer-down target is a text input, every page-0 text-field widget with
activated strictly true and hasValue not truthy is actually stored with
its bag spread with activated set to false and receives exactly that
update, and (frame) nothing else changes: every annotation is either
untouched or one of those deactivations. -/
theorem claim_C3_click_elsewhere_amended (d : DemoState) (hN : UniqueIds d.inst) :
    (d.activeAnnotationId = none → handleClickElsewhere d = (d, []))
    ∧ (∀ activeId, d.activeAnnotationId = some activeId →
        (handleClickElsewhere d).1.activeAnnotationId = none
        ∧ (∀ w cd, findWidgetWithCD d.inst.pages
              (fun a => a.kind == AnnKind.widget && a.id == activeId) = some (w, cd) →
            handleClickElsewhere d
              = ({ inst := setAnnot d.inst
                    { w with customData := some { cd with clickedOnce := some false } }
                 , activeAnnotationId := none },
                 [SdkCall.update w.id { cd with clickedOnce := some false }]))
        ∧ (findWidgetWithCD d.inst.pages
              (fun a => a.kind == AnnKind.widget && a.id == activeId) = none →
            handleClickElsewhere d = ({ inst := d.inst, activeAnnotationId := none }, [])))
    ∧ (∀ tgt : Bool, d.activeAnnotationId = none →
        (handleClickElsewhereExt tgt d).1.activeAnnotationId = none
        ∧ PagesRel DeactRel d.inst.pages (handleClickElsewhereExt tgt d).1.inst.pages
        ∧ (tgt = true → handleClickElsewhereExt tgt d = (d, [])))
    ∧ (∀ x cd, d.activeAnnotationId = none → x ∈ getAnnots d.inst 0 →
        x.kind = AnnKind.widget → x.customData = some cd →
        cd.ctype = some "text-field" → cd.activated = some true →
        truthy cd.hasValue = false →
        lookupAnn (handleClickElsewhereExt false d).1.inst x.id = some (deactOf x)
        ∧ SdkCall.update x.id { cd with activated := some false }
            ∈ (handleClickElsewhereExt false d).2)
    ∧ (∀ activeId, d.activeAnnotationId = some activeId → ∀ tgt : Bool,
        (handleClickElsewhereExt tgt d).1.activeAnnotationId = none
        ∧ ∀ w cd, findWidgetWithCD d.inst.pages
            (fun a => a.kind == AnnKind.widget && a.id == activeId) = some (w, cd) →
          SdkCall.update w.id { cd with clickedOnce := some false }
            ∈ (handleClickElsewhereExt tgt d).2) := by
  refine ⟨?_, ?_, ?_, ?_, ?_⟩
  · intro hA
    unfold handleClickElsewhere
    exact resetActiveAnnot_none d hA
  · intro activeId hA
    refine ⟨resetActiveAnnot_active d, ?_, ?_⟩
    · intro w cd hf
      unfold handleClickElsewhere resetActiveAnnot
      rw [hA]
      dsimp only
      rw [hf]
    · intro hf
      unfold handleClickElsewhere resetActiveAnnot
      rw [hA]
      dsimp only
      rw [hf]
  · intro tgt hA
    unfold handleClickElsewhereExt
    rw [resetActiveAnnot_none d hA]
    cases tgt with
    | true =>
      dsimp only
      exact ⟨hA, pagesRel_refl fun x _ => Or.inl rfl, fun _ => rfl⟩
    | false =>
      dsimp only
      rcases deactivateTextFields_spec d hN with ⟨hrel, hact⟩
      exact ⟨hact.trans hA, hrel, fun h => by cases h⟩
  · intro x cd hA hx hk hcd hty hatv hhv
    have hxmem : x ∈ allAnns d.inst := by
      rw [getAnnots_zero] at hx
      exact headD_subset_flatten hx
    have hred : handleClickElsewhereExt false d
        = ((deactivateTextFields d).1, (deactivateTextFields d).2) := by
      unfold handleClickElsewhereExt
      rw [resetActiveAnnot_none d hA]
      rfl
    have hmemT := mem_deactTargets hx hk hcd hty hatv hhv
    constructor
    · rw [hred]
      dsimp only
      rw [deactivateTextFields_as_fold]
      exact deactFold_progress d hN x cd hxmem hcd (deactTargets d) d []
        (deactTargets_facts d) hmemT (Or.inl (lookupAnn_self_of_uniqueIds hN hxmem))
    · rw [hred]
      dsimp only
      rw [deactivateTextFields_as_fold, deactFold_trace]
      refine List.mem_append_right _ ?_
      exact List.mem_map.mpr ⟨(x, cd), hmemT, rfl⟩
  · intro activeId hA tgt
    have hredT : handleClickElsewhereExt true d = resetActiveAnnot d := by
      unfold handleClickElsewhereExt
      rfl
    have hredF : handleClickElsewhereExt false d
        = ((deactivateTextFields (resetActiveAnnot d).1).1,
           (resetActiveAnnot d).2 ++ (deactivateTextFields (resetActiveAnnot d).1).2) := by
      unfold handleClickElsewhereExt
      rfl
    constructor
    · cases tgt with
      | true =>
        rw [hredT]
        exact resetActiveAnnot_active d
      | false =>
        rw [hredF]
        dsimp only
        rw [deactivateTextFields_active]
        exact resetActiveAnnot_active d
    · intro w cd hf
      have htr : (resetActiveAnnot d).2
          = [SdkCall.update w.id { cd with clickedOnce := some false }] := by
        unfold resetActiveAnnot
        rw [hA]
        dsimp only
        rw [hf]
      cases tgt with
      | true =>
        rw [hredT, htr]
        exact List.mem_cons_self _ _
      | false =>
        rw [hredF]
        dsimp only
        rw [htr]
        exact List.mem_append_left _ (List.mem_cons_self _ _)

theorem claim_C3_witness :
    (demoW3.activeAnnotationId = none → handleClickElsewhere demoW3 = (demoW3, []))
    ∧ (∀ activeId, demoW3.activeAnnotationId = some activeId →
        (handleClickElsewhere demoW3).1.activeAnnotationId = none
        ∧ (∀ w cd, findWidgetWithCD demoW3.inst.pages
              (fun a => a.kind == AnnKind.widget && a.id == activeId) = some (w, cd) →
            handleClickElsewhere demoW3
              = ({ inst := setAnnot demoW3.inst
                    { w with customData := some { cd with clickedOnce := some false } }
                 , activeAnnotationId := none },
                 [SdkCall.update w.id { cd with clickedOnce := some false }]))
        ∧ (findWidgetWithCD demoW3.inst.pages
              (fun a => a.kind == AnnKind.widget && a.id == activeId) = none →
            handleClickElsewhere demoW3 = ({ inst := demoW3.inst, activeAnnotationId := none }, [])))
    ∧ (∀ tgt : Bool, demoW3.activeAnnotationId = none →
        (handleClickElsewhereExt tgt demoW3).1.activeAnnotationId = none
        ∧ PagesRel DeactRel demoW3.inst.pages (handleClickElsewhereExt tgt demoW3).1.inst.pages
        ∧ (tgt = true → handleClickElsewhereExt tgt demoW3 = (demoW3, [])))
    ∧ (∀ x cd, demoW3.activeAnnotationId = none → x ∈ getAnnots demoW3.inst 0 →
        x.kind = AnnKind.widget → x.customData = some cd →
        cd.ctype = some "text-field" → cd.activated = some true →
        truthy cd.hasValue = false →
        lookupAnn (handleClickElsewhereExt false demoW3).1.inst x.id = some (deactOf x)
        ∧ SdkCall.update x.id { cd with activated := some false }
            ∈ (handleClickElsewhereExt false demoW3).2)
    ∧ (∀ activeId, demoW3.activeAnnotationId = some activeId → ∀ tgt : Bool,
        (handleClickElsewhereExt tgt demoW3).1.activeAnnotationId = none
        ∧ ∀ w cd, findWidgetWithCD demoW3.inst.pages
            (fun a => a.kind == AnnKind.widget && a.id == activeId) = some (w, cd) →
          SdkCall.update w.id { cd with clickedOnce := some false }
            ∈ (handleClickElsewhereExt tgt demoW3).2) :=
  claim_C3_click_elsewhere_amended demoW3 (by decide)
